import Mathlib

/-!
# Verification of the env-cloudctl state-reconciliation engine

Shallow embedding of `src/.ai/skills/features/environment/env-cloudctl/scripts/env_cloudctl.py`.

Modelling conventions:

* Python scalar values appearing in configuration maps are modelled by `Value`
  (`None`, strings, integers, booleans); nested JSON containers and floats do
  not occur in the behaviour the claims quantify over and are outside the
  value universe.
* Python `dict`s are modelled as association lists (`List (String × key)`) with
  first-binding lookup.  `pyDictInsert` models `d[k] = v` (update in place if
  the key exists, else append), so dictionaries built by the embedded code have
  unique keys in insertion order, exactly like CPython dicts.
* `die(...)` (print + `SystemExit(1)`) is modelled by `Except Err`, with one
  `Err` constructor per distinct fatal condition; warning strings are modelled
  by the structured type `Warn` (the formatted message text is abstracted, the
  distinguishing data is kept).
* File loading/parsing (`load_values`, `load_secrets_ref`, `parse_contract`,
  `load_policy_doc`) is upstream of every claim: functions take the already
  parsed documents as typed inputs.
-/

set_option autoImplicit false

namespace EnvCloudctl

/-- A Python scalar value as it appears in config/values/state maps.
`vnull` is Python `None`. -/
inductive Value where
  | vnull : Value
  | vstr : String → Value
  | vint : Int → Value
  | vbool : Bool → Value
deriving DecidableEq, Repr

deriving instance DecidableEq for Except

/-- Python `str.strip()` (whitespace as exercised by the embedded strings),
implemented structurally so that concrete runs reduce in the kernel. -/
def pyStrip (s : String) : String :=
  ⟨((s.data.dropWhile Char.isWhitespace).reverse.dropWhile Char.isWhitespace).reverse⟩

/-- Python `str.lower()`. -/
def pyLower (s : String) : String := ⟨s.data.map Char.toLower⟩

/-- Non-overlapping left-to-right replacement on character lists, fuelled by
the remaining length (`pat` is non-empty at every call site). -/
def replList (pat rep : List Char) : Nat → List Char → List Char
  | 0, l => l
  | _ + 1, [] => []
  | fuel + 1, c :: cs =>
    if pat.isPrefixOf (c :: cs) then rep ++ replList pat rep fuel ((c :: cs).drop pat.length)
    else c :: replList pat rep fuel cs

/-- Python `s.replace(pat, rep)` for a non-empty pattern. -/
def pyReplace (s pat rep : String) : String :=
  match pat.data with
  | [] => s
  | _ :: _ => ⟨replList pat.data rep.data s.data.length s.data⟩

def digitsToNatAux : List Char → Nat → Option Nat
  | [], acc => some acc
  | c :: cs, acc =>
    if c.isDigit then digitsToNatAux cs (acc * 10 + (c.toNat - 48)) else none

def digitsToNat : List Char → Option Nat
  | [] => none
  | cs => digitsToNatAux cs 0

/-- Python `int(s)` on an already stripped string of plain decimal digits with
an optional sign (the only numeral forms reaching `int(...)` here). -/
def pyParseInt (s : String) : Option Int :=
  match s.data with
  | '-' :: rest => (digitsToNat rest).map (fun n => -(n : Int))
  | '+' :: rest => (digitsToNat rest).map (fun n => (n : Int))
  | l => (digitsToNat l).map (fun n => (n : Int))

/-- First-binding association-list lookup: `d.get(k)` returning `none` when absent. -/
def alookup {α : Type} : List (String × α) → String → Option α
  | [], _ => none
  | (k', v) :: rest, k => if k' = k then some v else alookup rest k

/-- Python `d[k] = v`: replace the existing binding in place, else append.
Mirrors CPython dict assignment (insertion order preserved, unique keys). -/
def pyDictInsert {α : Type} : List (String × α) → String → α → List (String × α)
  | [], k, v => [(k, v)]
  | (k', v') :: rest, k, v =>
    if k' = k then (k, v) :: rest else (k', v') :: pyDictInsert rest k v

/-- `d.get(k)` on a dict of `Value`s: absent keys read as Python `None`. -/
def pyGet (m : List (String × Value)) (k : String) : Value :=
  (alookup m k).getD .vnull

/-- `m.get("stable_ref") if m.get("stable_ref") is not None else m.get("ref")`:
the stable-ref-with-legacy-fallback read shared by the diff normalization
(line 1291), the apply loop (line 1796) and rotation (line 2027). -/
def srefOf (m : List (String × Value)) : Value :=
  if pyGet m "stable_ref" ≠ Value.vnull then pyGet m "stable_ref" else pyGet m "ref"

/-- Python truthiness of a `Value` (`bool(x)`). -/
def pyTruthy : Value → Bool
  | .vnull => false
  | .vstr s => s ≠ ""
  | .vint n => n ≠ 0
  | .vbool b => b

/-- Python `int(x)` on a scalar, `none` when it raises
(`int(None)`, `int` of a non-numeric string). -/
def pyInt : Value → Option Int
  | .vnull => none
  | .vstr s => pyParseInt (pyStrip s)
  | .vint n => some n
  | .vbool b => some (if b then 1 else 0)

/-- Python `x or d` for an optional string field: `None` and `""` fall back to `d`. -/
def pyOrStr (a : Option String) (d : String) : String :=
  match a with
  | none => d
  | some s => if s = "" then d else s

/-- `str(set_cfg.get(k) or "")` for an optional string field. -/
def orEmpty (a : Option String) : String := pyOrStr a ""

/-- `s or None`: an empty string becomes `None`. -/
def noneIfEmpty (s : String) : Option String := if s = "" then none else some s

/-- Python dict equality for `Value` dicts (`d1 == d2`): same key sets and
equal values at every key.  Used where the source compares two dicts with
`!=` inside `diff_maps`. -/
def dictEq (a b : List (String × Value)) : Bool :=
  (a.map Prod.fst).all (fun k => decide (k ∈ b.map Prod.fst)) &&
  (b.map Prod.fst).all (fun k => decide (k ∈ a.map Prod.fst)) &&
  (a.map Prod.fst).all (fun k => alookup a k == alookup b k)

/-- `sorted(...)` on a list of keys. -/
def sortStr (l : List String) : List String := l.insertionSort (· ≤ ·)

/-! ## Policy decision engine (`decide_policy_env`, lines 121-201) -/

/-- `AUTH_MODES` (line 79). -/
def AUTH_MODES : List String := ["role-only", "auto", "ak-only"]

/-- `PREFLIGHT_MODES` (line 80). -/
def PREFLIGHT_MODES : List String := ["fail", "warn", "off"]

/-- `PolicyDecision` dataclass (lines 83-92). -/
structure PolicyDecision where
  env : String
  runtime_target : String
  workload : Option String
  auth_mode : String
  preflight_mode : String
  rule_id : Option String
  fallback_dir : String
  ak_fallback_record : Bool
deriving DecidableEq, Repr

/-- A rule's `match` mapping restricted to its three allowed keys
(`env`, `runtime_target`, `workload`; unknown keys are a fatal schema error
upstream and are excluded structurally).  The outer `Option` is key presence
in the mapping; the inner `Option String` is the YAML value, which may be
`null` (Python `None`). -/
structure RuleMatch where
  env : Option (Option String)
  runtime_target : Option (Option String)
  workload : Option (Option String)
deriving DecidableEq, Repr

/-- A `policy.env.rules[]` entry.  `rmatch = none` models `r.get("match") is None`
(such a rule is skipped, line 141-142).  The `set` block is flattened into its
three consumed fields (`auth_mode`, `preflight.mode`, `ak_fallback.record`). -/
structure Rule where
  id : Option String
  rmatch : Option RuleMatch
  set_auth_mode : Option String
  set_preflight_mode : Option String
  set_ak_fallback_record : Bool
deriving DecidableEq, Repr

/-- `str(x)` of a match-predicate value that may be Python `None` (line 151 etc.). -/
def predStr : Option String → String
  | none => "None"
  | some s => s

/-- Specificity contribution of one predicate key:
`len([k for k, v in match.items() if v is not None])` counts only keys whose
value is non-null (line 159). -/
def countNonNull : Option (Option String) → Nat
  | some (some _) => 1
  | _ => 0

/-- Whether a rule's declared predicates all match the input (lines 151-157). -/
def ruleMatches (m : RuleMatch) (env rt : String) (w : Option String) : Bool :=
  (match m.env with
   | some p => pyStrip (predStr p) == env
   | none => true) &&
  (match m.runtime_target with
   | some p => pyStrip (predStr p) == rt
   | none => true) &&
  (match m.workload with
   | some p =>
     match w with
     | none => false
     | some wv => pyStrip (predStr p) == wv
   | none => true)

/-- Rule specificity (line 159). -/
def ruleSpecificity (m : RuleMatch) : Nat :=
  countNonNull m.env + countNonNull m.runtime_target + countNonNull m.workload

/-- The matched-rule list with specificities, in rule order (lines 136-160). -/
def matchedRules (rules : List Rule) (env rt : String) (w : Option String) :
    List (Nat × Rule) :=
  rules.filterMap fun r =>
    match r.rmatch with
    | none => none
    | some m => if ruleMatches m env rt w then some (ruleSpecificity m, r) else none

/-- `matched[0][0]` after the stable descending sort: the maximum specificity. -/
def maxSpecOf (matched : List (Nat × Rule)) : Nat :=
  (matched.map Prod.fst).foldl max 0

/-- `str(r.get("id") or "<missing-id>")` (line 169). -/
def idOrMissing (id : Option String) : String :=
  match id with
  | none => "<missing-id>"
  | some s => if s = "" then "<missing-id>" else s

/-- Non-fatal warnings collected by the builder, structurally
(the formatted message text is abstracted). -/
inductive PreMsg where
  | roleOnlyViolation (ak_env_vars env_var_presence credential_files : List String)
  | autoAkWarning
  | evidenceRecorded
deriving DecidableEq, Repr

inductive Warn where
  | providerAlias (raw canonical : String)
  | legacyKey (oldKey newKey : String)
  | deprecatedKey (key : String) (deprecate_after replacement : Option String)
  | dockerComposeDeprecated
  | pre (m : PreMsg)
deriving DecidableEq, Repr

/-- Fatal errors (`die(...)`), one constructor per distinct condition. -/
inductive Err where
  | badDefaultAuthMode (got : String)
  | badDefaultPreflightMode (got : String)
  | badRuleAuthMode (got : String)
  | badRulePreflightMode (got : String)
  | ambiguousRules (spec : Nat) (ids : List String)
  | internalNoTop
  | noTargetMatched (env : String) (workload : Option String)
  | ambiguousTargets (spec : Nat) (ids : List String)
  | targetSetNotMapping
  | providerRequired
  | unsupportedProvider (raw : String)
  | emptyEnvFileName
  | bwsPolicyMissing
  | bwsProjectMissing (env : String)
  | bwsProjectPlaceholder (env : String)
  | bwsEmptyPrefix
  | assertSecretRefMissing (var : String)
  | missingSecretRef (refName var env : String)
  | unknownValuesKey (key : String)
  | removedKey (key : String)
  | secretKeyInValues (key : String)
  | outOfScopeKey (rawKey resolvedKey : String)
  | typeCheckFailed (key msg : String)
  | conflictingKeys (legacyKey newKey : String)
  | missingRequired (env var : String)
  | preflightFailed (errors : List PreMsg)
  | rotateUnsupportedProvider (provider : String)
  | secretNotInDesired (secret env : String)
  | rotateBackendUnsupported (backend : Value)
  | badVersionValue (v : Value)
  | envfileOracleError
deriving DecidableEq, Repr

/-- One provider entry under `policy.env.preflight.detect.providers` (lines 218-283):
credential-set shapes, presence variables and credential-file paths. -/
structure CredSet where
  id_vars : List String
  secret_vars : List String
  token_vars : List String
deriving DecidableEq, Repr

structure ProviderDetect where
  env_credential_sets : List CredSet
  env_var_presence : List String
  credential_file_paths : List String
deriving DecidableEq, Repr

/-- `policy.env.secrets.backends.bws` (lines 945-973). -/
structure BwsCfg where
  projects : List (String × String)
  project_prefix : Option String
  shared_prefix : Option String
deriving DecidableEq, Repr

/-- `policy.env.cloud.defaults` (lines 388-392). -/
structure CloudDefaults where
  runtime : Option String
  env_file_name : Option String
deriving DecidableEq, Repr

/-- A cloud target's `match` mapping (allowed keys `env`, `workload`;
unknown keys are fatal upstream and excluded structurally). -/
structure TargetMatch where
  env : Option (Option String)
  workload : Option (Option String)
deriving DecidableEq, Repr

/-- A cloud target's `set` block, restricted to the fields the modelled code
consumes (`ssh`/`docker_compose`/`injection` feed only the envfile-transport
normalization, which is abstracted; see `build_desired_state`). -/
structure TargetSet where
  provider : Option String
  runtime : Option String
  env_file_name : Option String
  deploy_dir : Option String
  compose_dir : Option String
  health_url : Option String
  health_timeout_ms : Option Int
deriving DecidableEq, Repr

/-- A `policy.env.cloud.targets[]` entry.  `tmatch = none` models a missing or
non-mapping `match` (such a target is skipped, lines 398-400). -/
structure TargetRule where
  id : Option String
  tmatch : Option TargetMatch
  tset : Option TargetSet
deriving DecidableEq, Repr

/-- The parsed `policy.env` mapping, restricted to the consumed fields. -/
structure PolicyEnvCfg where
  default_auth_mode : Option String
  default_preflight_mode : Option String
  fallback_dir : Option String
  rules : List Rule
  detect_providers : List (String × ProviderDetect)
  cloud_defaults : CloudDefaults
  cloud_targets : List TargetRule
  bws : Option BwsCfg
deriving DecidableEq, Repr

/-- Applying the selected rule's `set` block over the defaults (lines 172-190). -/
def applyRuleSet (env rt : String) (w : Option String)
    (auth0 pf0 fallback_dir : String) (r : Rule) : Except Err PolicyDecision := do
  let rule_id :=
    match r.id with
    | some s => if pyStrip s ≠ "" then some s else none
    | none => none
  let auth ←
    match r.set_auth_mode with
    | some am =>
      if pyStrip am ≠ "" then
        if pyStrip am ∈ AUTH_MODES then pure (pyStrip am) else Except.error (.badRuleAuthMode am)
      else pure auth0
    | none => pure auth0
  let pf ←
    match r.set_preflight_mode with
    | some pm =>
      if pyStrip pm ≠ "" then
        if pyStrip pm ∈ PREFLIGHT_MODES then pure (pyStrip pm)
        else Except.error (.badRulePreflightMode pm)
      else pure pf0
    | none => pure pf0
  pure {
    env := env, runtime_target := rt, workload := w,
    auth_mode := auth, preflight_mode := pf, rule_id := rule_id,
    fallback_dir := fallback_dir, ak_fallback_record := r.set_ak_fallback_record }

/-- `decide_policy_env` (lines 121-201).  The stable descending sort followed by
taking the leading group of equal specificities (lines 165-167) is modelled by
filtering the matched list for the maximal specificity, which yields the same
group in the same (original, hence sorted-stable) order. -/
def decide_policy_env (pe : PolicyEnvCfg) (env rt : String) (w : Option String) :
    Except Err PolicyDecision :=
  let auth0 := pyStrip (pyOrStr pe.default_auth_mode "auto")
  if auth0 ∉ AUTH_MODES then Except.error (.badDefaultAuthMode auth0)
  else
    let pf0 := pyStrip (pyOrStr pe.default_preflight_mode "warn")
    if pf0 ∉ PREFLIGHT_MODES then Except.error (.badDefaultPreflightMode pf0)
    else
      let fallback_dir := pyStrip (pyOrStr pe.fallback_dir ".ai/.tmp/env/fallback")
      let matched := matchedRules pe.rules env rt w
      match matched with
      | [] =>
        Except.ok {
          env := env, runtime_target := rt, workload := w,
          auth_mode := auth0, preflight_mode := pf0, rule_id := none,
          fallback_dir := fallback_dir, ak_fallback_record := false }
      | _ :: _ =>
        let topSpec := maxSpecOf matched
        let top := matched.filter (fun p => p.1 = topSpec)
        match top with
        | [] => Except.error .internalNoTop
        | [(_, r)] => applyRuleSet env rt w auth0 pf0 fallback_dir r
        | tops => Except.error (.ambiguousRules topSpec (tops.map fun p => idOrMissing p.2.id))

/-! ## Cloud target selection (`select_cloud_target`, lines 386-475) -/

/-- `PROVIDER_ALIASES` (line 357). -/
def PROVIDER_ALIASES : List (String × String) :=
  [("ecs-envfile", "envfile"), ("ssh", "envfile")]

/-- `normalize_provider` (lines 360-367): `(canonical, alias_used)`. -/
def normalize_provider (provider : String) : String × Option String :=
  let p := pyLower (pyStrip provider)
  if p = "" then (p, none)
  else
    match alookup PROVIDER_ALIASES p with
    | some a => (a, some p)
    | none => (p, none)

/-- `CloudTarget` dataclass (lines 370-383), restricted to the fields the
modelled pipeline consumes (`ssh`/`docker_compose`/`injection` feed the
abstracted envfile normalization). -/
structure CloudTarget where
  target_id : Option String
  provider : String
  provider_raw : String
  runtime : Option String
  env_file_name : String
  deploy_dir : Option String
  compose_dir : Option String
  health_url : Option String
  health_timeout_ms : Int
deriving DecidableEq, Repr

def targetMatches (m : TargetMatch) (env : String) (w : Option String) : Bool :=
  (match m.env with
   | some p => pyStrip (predStr p) == env
   | none => true) &&
  (match m.workload with
   | some p =>
     match w with
     | none => false
     | some wv => pyStrip (predStr p) == wv
   | none => true)

def targetSpecificity (m : TargetMatch) : Nat :=
  countNonNull m.env + countNonNull m.workload

/-- The matched-target list with specificities, in declaration order (lines 394-414). -/
def matchedTargets (targets : List TargetRule) (env : String) (w : Option String) :
    List (Nat × TargetRule) :=
  targets.filterMap fun t =>
    match t.tmatch with
    | none => none
    | some m => if targetMatches m env w then some (targetSpecificity m, t) else none

def maxTargetSpecOf (matched : List (Nat × TargetRule)) : Nat :=
  (matched.map Prod.fst).foldl max 0

/-- Building the `CloudTarget` from the selected rule (lines 426-475). -/
def mkCloudTarget (defaults : CloudDefaults) (t : TargetRule) (env : String) :
    Except Err CloudTarget := do
  let target_id :=
    match t.id with
    | some s => if pyStrip s ≠ "" then some s else none
    | none => none
  match t.tset with
  | none => Except.error .targetSetNotMapping
  | some s =>
    let provider_raw := pyStrip (orEmpty s.provider)
    if provider_raw = "" then Except.error .providerRequired
    else
      let (provider, provider_alias) := normalize_provider provider_raw
      if provider ∉ ["mockcloud", "envfile"] then
        Except.error (.unsupportedProvider provider_raw)
      else
        let default_runtime := noneIfEmpty (pyStrip (orEmpty defaults.runtime))
        let default_env_file_name := pyStrip (pyOrStr defaults.env_file_name "{env}.env")
        let runtime := noneIfEmpty (pyStrip (pyOrStr s.runtime (pyOrStr default_runtime "")))
        let env_file_name :=
          pyReplace (pyStrip (pyOrStr s.env_file_name default_env_file_name)) "{env}" env
        if env_file_name = "" then Except.error .emptyEnvFileName
        else
          let deploy_dir := noneIfEmpty (pyStrip (orEmpty s.deploy_dir))
          let compose_dir := noneIfEmpty (pyStrip (orEmpty s.compose_dir))
          let compose_dir :=
            if compose_dir = none ∧ deploy_dir ≠ none then deploy_dir else compose_dir
          let deploy_dir :=
            if deploy_dir = none ∧ compose_dir ≠ none then compose_dir else deploy_dir
          let health_url := noneIfEmpty (pyStrip (orEmpty s.health_url))
          let health_timeout_ms :=
            match s.health_timeout_ms with
            | some n => if n > 0 then n else 5000
            | none => 5000
          pure {
            target_id := target_id,
            provider := provider,
            provider_raw := match provider_alias with
                            | none => provider_raw
                            | some a => a,
            runtime := runtime,
            env_file_name := env_file_name,
            deploy_dir := deploy_dir,
            compose_dir := compose_dir,
            health_url := health_url,
            health_timeout_ms := health_timeout_ms }

/-- `select_cloud_target` (lines 386-475), with the same stable-sort-to-filter
modelling as `decide_policy_env`. -/
def select_cloud_target (pe : PolicyEnvCfg) (env : String) (w : Option String) :
    Except Err CloudTarget :=
  let matched := matchedTargets pe.cloud_targets env w
  match matched with
  | [] => Except.error (.noTargetMatched env w)
  | _ :: _ =>
    let topSpec := maxTargetSpecOf matched
    let top := matched.filter (fun p => p.1 = topSpec)
    match top with
    | [] => Except.error .internalNoTop
    | [(_, t)] => mkCloudTarget pe.cloud_defaults t env
    | tops => Except.error (.ambiguousTargets topSpec (tops.map fun p => idOrMissing p.2.id))

/-! ## Preflight signal detection (`detect_preflight_signals`, lines 204-283,
and `run_policy_preflight`, lines 291-354) -/

/-- `_safe_str_list` (lines 204-211): keep stripped non-empty strings. -/
def safeStrList (l : List String) : List String :=
  l.filterMap fun s => let t := pyStrip s; if t = "" then none else some t

/-- `_map_has` (lines 214-215): `bool(str(env_map.get(var) or "").strip())`. -/
def mapHas (env_map : List (String × Value)) (v : String) : Bool :=
  match alookup env_map v with
  | none => false
  | some x =>
    if pyTruthy x then
      pyStrip (match x with
        | .vstr s => s
        | .vint n => toString n
        | .vbool b => if b then "True" else "False"
        | .vnull => "None") ≠ ""
    else false

/-- The `summary` block of `detect_preflight_signals` (lines 224, 277-282).
The per-provider breakdown (`out["providers"]`) feeds only the human report and
the evidence payload, neither of which a claim quantifies over. -/
structure SignalSummary where
  has_ak : Bool
  has_sts : Bool
  ak_env_vars : List String
  sts_env_vars : List String
  env_var_presence : List String
  credential_files : List String
deriving DecidableEq, Repr

/-- Signal of one `env_credential_sets` entry (lines 239-255): the first present
id/secret/token variable of each kind; a set without both id and secret
variables present yields nothing. -/
def credSetSignal (env_map : List (String × Value)) (s : CredSet) :
    Option (Bool × List String) :=
  match (safeStrList s.id_vars).find? (mapHas env_map),
        (safeStrList s.secret_vars).find? (mapHas env_map) with
  | some idv, some secv =>
    match (safeStrList s.token_vars).find? (mapHas env_map) with
    | some tokv => some (true, [idv, secv, tokv])
    | none => some (false, [idv, secv])
  | _, _ => none

/-- `sorted(list(set(xs)))`. -/
def pySortedSet (l : List String) : List String := sortStr l.dedup

/-- `detect_preflight_signals` (lines 218-283).  `fileExists` abstracts
`Path(os.path.expanduser(p)).exists()`. -/
def detect_preflight_signals (pe : PolicyEnvCfg) (env_map : List (String × Value))
    (check_files : Bool) (fileExists : String → Bool) : SignalSummary :=
  let step := fun (acc : List String × List String × List String × List String)
                  (p : String × ProviderDetect) =>
    let (ak, sts, pres, files) := acc
    let perSet := p.2.env_credential_sets.filterMap (credSetSignal env_map)
    let ak' := ak ++ (perSet.filterMap fun q => if q.1 then none else some q.2).flatten
    let sts' := sts ++ (perSet.filterMap fun q => if q.1 then some q.2 else none).flatten
    let pres' := pres ++ (safeStrList p.2.env_var_presence).filter (mapHas env_map)
    let files' := files ++
      (if check_files then (safeStrList p.2.credential_file_paths).filter fileExists
       else [])
    (ak', sts', pres', files')
  let (allAk, allSts, allPres, allFiles) :=
    pe.detect_providers.foldl step ([], [], [], [])
  { has_ak := allAk ≠ [] ∨ allFiles ≠ [] ∨ allPres ≠ []
    has_sts := allSts ≠ []
    ak_env_vars := pySortedSet allAk
    sts_env_vars := pySortedSet allSts
    env_var_presence := pySortedSet allPres
    credential_files := pySortedSet allFiles }

/-- `run_policy_preflight` (lines 291-354): `(errors, warnings, evidence_recorded)`.
Writing the evidence file is I/O; the returned `Bool` records whether the
source would have written it (and appended the corresponding warning). -/
def run_policy_preflight (pe : PolicyEnvCfg) (decision : PolicyDecision)
    (env_map : List (String × Value)) (check_files : Bool)
    (fileExists : String → Bool) : List PreMsg × List PreMsg × Bool :=
  if decision.preflight_mode = "off" then ([], [], false)
  else
    let s := detect_preflight_signals pe env_map check_files fileExists
    let (errs1, warns1) :=
      if decision.auth_mode = "role-only" ∧ s.has_ak then
        let msg := PreMsg.roleOnlyViolation s.ak_env_vars s.env_var_presence s.credential_files
        if decision.preflight_mode = "fail" then ([msg], ([] : List PreMsg))
        else ([], [msg])
      else ([], [])
    let (warns2, recorded) :=
      if decision.auth_mode = "auto" ∧ s.has_ak then
        let w1 := warns1 ++ [PreMsg.autoAkWarning]
        if decision.ak_fallback_record ∧ ¬ s.has_sts then
          (w1 ++ [PreMsg.evidenceRecorded], true)
        else (w1, false)
      else (warns1, false)
    (errs1, warns2, recorded)

/-! ## Contract model (`ContractVar`, lines 694-845) -/

/-- `ContractVar` dataclass (lines 694-707), as produced by `parse_contract`
(lines 710-841).  Parsing/validation of the YAML document is upstream of all
claims; the claims quantify over parsed variable lists. -/
structure ContractVar where
  name : String
  vtype : String
  required : Bool
  default : Option Value
  secret : Bool
  secret_ref : Option String
  scopes : Option (List String)
  state : String
  deprecate_after : Option String
  replacement : Option String
  rename_from : Option String
deriving DecidableEq, Repr

/-- `is_in_scope` (lines 844-845). -/
def is_in_scope (var : ContractVar) (env : String) : Bool :=
  match var.scopes with
  | none => true
  | some sc => decide (env ∈ sc)

/-- `type_check_value` (lines 849-868) over the modelled value universe
(no nested JSON containers or floats; an `int` value satisfies the `float`
check as in Python). -/
def type_check_value (var : ContractVar) (value : Value) : Option String :=
  if var.vtype = "string" then
    match value with | .vstr _ => none | _ => some "expected string"
  else if var.vtype = "url" then
    match value with | .vstr _ => none | _ => some "expected url string"
  else if var.vtype = "int" then
    match value with | .vint _ => none | _ => some "expected int"
  else if var.vtype = "float" then
    match value with | .vint _ => none | _ => some "expected float"
  else if var.vtype = "bool" then
    match value with | .vbool _ => none | _ => some "expected bool"
  else if var.vtype = "json" then
    match value with | .vnull => some "expected json-like" | _ => none
  else if var.vtype = "enum" then
    match value with | .vstr _ => none | _ => some "expected enum string"
  else none

/-! ## Secret references and stable refs (lines 888-995) -/

/-- One entry of the per-environment secret-reference file, as validated by
`load_secrets_ref` (lines 888-938): backend tag plus the backend-specific
fields consumed downstream.  The file validation forbids `value`/`ref` keys,
so no value field exists to model. -/
structure SecretCfg where
  backend : String
  env_var : Option String
  path : Option String
  scope : Option String
  project_id : Option String
  project_name : Option String
  key : Option String
deriving DecidableEq, Repr

/-- Python `needle in hay` on strings (`_is_placeholder`, lines 941-942). -/
def strContains (hay needle : String) : Bool :=
  (List.range (hay.data.length + 1)).any fun i => needle.data.isPrefixOf (hay.data.drop i)

/-- `bws_project_name` (lines 954-962). -/
def bws_project_name (pe : PolicyEnvCfg) (env : String) : Except Err String :=
  match pe.bws with
  | none => Except.error .bwsPolicyMissing
  | some bws =>
    match alookup bws.projects env with
    | none => Except.error (.bwsProjectMissing env)
    | some name =>
      if pyStrip name = "" then Except.error (.bwsProjectMissing env)
      else if (strContains name "<org>" ∨ strContains name "<project>") then
        Except.error (.bwsProjectPlaceholder env)
      else Except.ok (pyStrip name)

/-- `bws_secret_key` (lines 965-973). -/
def bws_secret_key (pe : PolicyEnvCfg) (env secret_name scope : String) :
    Except Err String :=
  match pe.bws with
  | none => Except.error .bwsPolicyMissing
  | some bws =>
    let project_prefix := pyOrStr bws.project_prefix "project/{env}/"
    let shared_prefix := pyOrStr bws.shared_prefix "shared/"
    let prefx := if scope = "shared" then shared_prefix
                 else pyReplace project_prefix "{env}" env
    if prefx = "" then Except.error .bwsEmptyPrefix
    else Except.ok (prefx ++ secret_name)

/-- `stable_secret_ref` (lines 976-995). -/
def stable_secret_ref (pe : PolicyEnvCfg) (env secret_name : String)
    (cfg : SecretCfg) : Except Err String :=
  let backend := pyStrip cfg.backend
  if backend = "mock" then Except.ok ("mock://" ++ env ++ "/" ++ secret_name)
  else if backend = "env" then Except.ok ("env_var:" ++ pyStrip (orEmpty cfg.env_var))
  else if backend = "file" then Except.ok ("path:" ++ pyStrip (orEmpty cfg.path))
  else if backend = "bws" then do
    let scope := pyStrip (orEmpty cfg.scope)
    let project_id := noneIfEmpty (pyStrip (orEmpty cfg.project_id))
    let project_name0 := noneIfEmpty (pyStrip (orEmpty cfg.project_name))
    let project_name ←
      match project_id with
      | some _ => pure project_name0
      | none =>
        match project_name0 with
        | some n => pure (some n)
        | none => (bws_project_name pe env).map some
    let key ←
      match noneIfEmpty (pyStrip (orEmpty cfg.key)) with
      | some k => pure k
      | none => bws_secret_key pe env secret_name scope
    let proj :=
      match project_id with
      | some pid => pid
      | none =>
        match project_name with
        | some pn => pn
        | none => "<missing-project>"
    pure ("bws://" ++ proj ++ "?key=" ++ key)
  else Except.ok ("<unsupported:" ++ backend ++ ">")

/-! ## Desired-state builder (`build_desired_state`, lines 1015-1154) -/

/-- `EnvFileInjection` dataclass (lines 478-488), restricted to plain data
(the resolved ssh target list is part of the abstracted normalization; the
source field `sudo` is spelled `use_sudo` because `sudo` is a reserved token
in this Lean environment). -/
structure EnvFileInjection where
  transport : String
  target_path : String
  mode : Nat
  remote_tmp_dir : Option String
  use_sudo : Bool
  pre_commands : List String
  post_commands : List String
  meta_path : Option String
deriving DecidableEq, Repr

/-- `DesiredState` dataclass (lines 998-1012), restricted to the fields the
modelled operations consume (`policy_doc`/`policy_env` are the builder's own
inputs and are not duplicated into the state). -/
structure DesiredState where
  env : String
  provider : String
  runtime : Option String
  config : List (String × Value)
  secrets : List (String × List (String × Value))
  secrets_cfg : List (String × SecretCfg)
  var_to_secret_ref : List (String × String)
  warnings : List Warn
  envfile : Option EnvFileInjection
  policy_decision : PolicyDecision
  target : CloudTarget
deriving DecidableEq, Repr

/-- Left fold over a list in `Except`, stopping at the first error: the shape
of every validating loop in the builder. -/
def exFoldl {α β : Type} (f : α → β → Except Err α) : α → List β → Except Err α
  | a, [] => Except.ok a
  | a, b :: bs =>
    match f a b with
    | Except.error e => Except.error e
    | Except.ok a' => exFoldl f a' bs

/-- Accumulator of the first builder loop (lines 1031-1064): config seeded with
defaults, plus the three secret maps. -/
structure SeedAcc where
  config : List (String × Value)
  secrets : List (String × List (String × Value))
  secretsCfg : List (String × SecretCfg)
  varToSecret : List (String × String)
deriving DecidableEq, Repr

/-- One iteration of the defaults/secrets loop (lines 1045-1064): skip
out-of-scope and removed variables; record secret references (backend +
stable ref only); seed non-secret defaults. -/
def seedStep (pe : PolicyEnvCfg) (secrets_ref : List (String × SecretCfg))
    (env : String) (acc : SeedAcc) (var : ContractVar) : Except Err SeedAcc :=
  if ¬ is_in_scope var env then Except.ok acc
  else if var.state = "removed" then Except.ok acc
  else if var.secret then
    match var.secret_ref with
    | none => Except.error (.assertSecretRefMissing var.name)
    | some refName =>
      match alookup secrets_ref refName with
      | none => Except.error (.missingSecretRef refName var.name env)
      | some cfg =>
        match stable_secret_ref pe env refName cfg with
        | Except.error e => Except.error e
        | Except.ok sref =>
          Except.ok {
            config := acc.config
            secrets := pyDictInsert acc.secrets refName
              [("backend", .vstr (pyStrip cfg.backend)), ("stable_ref", .vstr sref)]
            secretsCfg := pyDictInsert acc.secretsCfg refName cfg
            varToSecret := pyDictInsert acc.varToSecret var.name refName }
  else
    match var.default with
    | some d => Except.ok { acc with config := pyDictInsert acc.config var.name d }
    | none => Except.ok acc

/-- `contract_by_name` (line 1066): one dict-comprehension pass. -/
def byNameOf (contract : List ContractVar) : List (String × ContractVar) :=
  contract.foldl (fun m v => pyDictInsert m v.name v) []

/-- `rename_map` (line 1067). -/
def renameMapOf (contract : List ContractVar) : List (String × String) :=
  contract.foldl
    (fun m v =>
      match v.rename_from with
      | some rf => pyDictInsert m rf v.name
      | none => m)
    []

/-- One iteration of the values-overlay loop (lines 1070-1106): resolve the key
directly or through the rename map, validate lifecycle/secret/scope/type, then
store. -/
def overlayStep (byName : List (String × ContractVar))
    (renameMap : List (String × String)) (valuesKeys : List String) (env : String)
    (acc : List (String × Value) × List Warn) (entry : String × Value) :
    Except Err (List (String × Value) × List Warn) :=
  let (config, warns) := acc
  let (rawKey, rawValue) := entry
  let resolved : Except Err (String × Option ContractVar × List Warn) :=
    match alookup byName rawKey with
    | some v => Except.ok (rawKey, some v, warns)
    | none =>
      match alookup renameMap rawKey with
      | some newKey =>
        if newKey ∈ valuesKeys then Except.error (.conflictingKeys rawKey newKey)
        else Except.ok (newKey, alookup byName newKey,
                        warns ++ [Warn.legacyKey rawKey newKey])
      | none => Except.ok (rawKey, none, warns)
  match resolved with
  | Except.error e => Except.error e
  | Except.ok (key, vdef?, warns) =>
    match vdef? with
    | none => Except.error (.unknownValuesKey rawKey)
    | some vdef =>
      if vdef.state = "removed" then Except.error (.removedKey rawKey)
      else if vdef.secret then Except.error (.secretKeyInValues rawKey)
      else if ¬ is_in_scope vdef env then Except.error (.outOfScopeKey rawKey key)
      else
        let warns :=
          if vdef.state = "deprecated" then
            warns ++ [Warn.deprecatedKey key vdef.deprecate_after vdef.replacement]
          else warns
        match type_check_value vdef rawValue with
        | some msg => Except.error (.typeCheckFailed rawKey msg)
        | none => Except.ok (pyDictInsert config key rawValue, warns)

/-- Force-set of the environment selector (lines 1109-1112): the first contract
variable named `APP_ENV` whose state is not `removed` triggers the overwrite. -/
def forceAppEnv (contract : List ContractVar) (env : String)
    (config : List (String × Value)) : List (String × Value) :=
  match contract.find? (fun v => v.name == "APP_ENV" && v.state != "removed") with
  | some _ => pyDictInsert config "APP_ENV" (.vstr env)
  | none => config

/-- The first variable violating the required-value check (lines 1115-1123),
if any: in-scope, non-removed, non-secret, required, and missing / `None` /
empty-string in the effective config. -/
def requiredViolation (env : String) (config : List (String × Value))
    (contract : List ContractVar) : Option ContractVar :=
  contract.find? fun var =>
    is_in_scope var env && var.state != "removed" && !var.secret && var.required &&
    (match alookup config var.name with
     | none => true
     | some v => v == Value.vnull || v == Value.vstr "")

/-- The preflight env-map (lines 1126-1128): the effective config with every
secret-backed variable replaced by the redaction marker. -/
def preflightEnvOf (config : List (String × Value))
    (varToSecret : List (String × String)) : List (String × Value) :=
  varToSecret.foldl (fun m p => pyDictInsert m p.1 (.vstr "***REDACTED***")) config

/-- Stages of `build_desired_state` after policy decision / target selection
(lines 1044-1154). -/
def buildStage2 (contract : List ContractVar) (pe : PolicyEnvCfg)
    (values : List (String × Value)) (secrets_ref : List (String × SecretCfg))
    (env : String) (decision : PolicyDecision) (target : CloudTarget)
    (warns1 : List Warn) (envfileInj : Option EnvFileInjection) :
    Except Err DesiredState :=
  match exFoldl (seedStep pe secrets_ref env) ⟨[], [], [], []⟩ contract with
  | Except.error e => Except.error e
  | Except.ok seed =>
    match exFoldl
        (overlayStep (byNameOf contract) (renameMapOf contract)
          (values.map Prod.fst) env)
        (seed.config, warns1) values with
    | Except.error e => Except.error e
    | Except.ok (config1, warns2) =>
      match requiredViolation env (forceAppEnv contract env config1) contract with
      | some var => Except.error (.missingRequired env var.name)
      | none =>
        match run_policy_preflight pe decision
            (preflightEnvOf (forceAppEnv contract env config1) seed.varToSecret)
            false (fun _ => false) with
        | (pe1 :: pes, _, _) => Except.error (.preflightFailed (pe1 :: pes))
        | ([], pwarns, _) =>
          Except.ok {
            env := env
            provider := target.provider
            runtime := target.runtime
            config := forceAppEnv contract env config1
            secrets := seed.secrets
            secrets_cfg := seed.secretsCfg
            var_to_secret_ref := seed.varToSecret
            warnings := warns2 ++ pwarns.map Warn.pre
            envfile := envfileInj
            policy_decision := decision
            target := target }

/-- `build_desired_state` (lines 1015-1154) over parsed inputs.

`ensure_ssot_mode` and the document loaders are upstream.  The runtime target
is the literal `"ecs"` of line 1020.  `normalize_envfile_injection`
(lines 601-691, reached only for `provider = "envfile"`) loads host files and
resolves filesystem paths; its result — the injection descriptor and its
deprecation warnings, or a fatal error — is taken as the input `envfileOracle`
and is consumed exactly where the source consumes it (lines 1039-1042). -/
def build_desired_state (contract : List ContractVar) (pe : PolicyEnvCfg)
    (values : List (String × Value)) (secrets_ref : List (String × SecretCfg))
    (env : String) (workload : Option String)
    (envfileOracle : Except Err (EnvFileInjection × List Warn)) :
    Except Err DesiredState :=
  match decide_policy_env pe env "ecs" workload with
  | Except.error e => Except.error e
  | Except.ok decision =>
    match select_cloud_target pe env workload with
    | Except.error e => Except.error e
    | Except.ok target =>
      let warns0 : List Warn :=
        if target.provider_raw ≠ "" ∧ pyLower target.provider_raw ≠ target.provider
        then [Warn.providerAlias target.provider_raw target.provider]
        else []
      if target.provider = "envfile" then
        match envfileOracle with
        | Except.error e => Except.error e
        | Except.ok (inj, ws) =>
          buildStage2 contract pe values secrets_ref env decision target
            (warns0 ++ ws) (some inj)
      else
        buildStage2 contract pe values secrets_ref env decision target warns0 none

/-! ## Diff engine (`diff_maps`/`diff_state`, lines 1255-1310) -/

/-- A deployed secret-metadata entry as read back from the persisted JSON
record: a JSON object, or any non-object scalar (line 1293-1294). -/
inductive DeployedSecret where
  | dict (m : List (String × Value))
  | scalar (v : Value)
deriving DecidableEq, Repr

/-- The persisted deployed-state record (mock `state.json`, lines 1801-1809).
`config`/`secrets` are `Option` because `diff_state` defends against their
absence (lines 1277-1282); `applied_at` is any JSON value or absent. -/
structure DeployedRecord where
  env : String
  provider : String
  runtime : Option String
  applied_at : Option Value
  config : Option (List (String × Value))
  secrets : Option (List (String × DeployedSecret))
  var_to_secret_ref : List (String × String)
deriving DecidableEq, Repr

/-- One diff bucket set (`diff_maps` result, line 1264). -/
structure MapDiff (α : Type) where
  added : List (String × α)
  removed : List (String × α)
  changed : List (String × α × α)
deriving DecidableEq, Repr

/-- `diff_maps` (lines 1255-1264): sorted-key set difference/intersection with
`eqv` as the value comparison (`==` on Python values; dict equality when the
values are dicts). `dflt` is unreachable padding for the total `getD`. -/
def diff_maps {α : Type} (eqv : α → α → Bool) (dflt : α)
    (old new : List (String × α)) : MapDiff α :=
  let oldKeys := (old.map Prod.fst).dedup
  let newKeys := (new.map Prod.fst).dedup
  let getOld := fun k => (alookup old k).getD dflt
  let getNew := fun k => (alookup new k).getD dflt
  { added := (sortStr (newKeys.filter fun k => decide (k ∉ oldKeys))).map
      fun k => (k, getNew k)
    removed := (sortStr (oldKeys.filter fun k => decide (k ∉ newKeys))).map
      fun k => (k, getOld k)
    changed := (sortStr (oldKeys.filter fun k => decide (k ∈ newKeys))).filterMap
      fun k => if eqv (getOld k) (getNew k) then none else some (k, getOld k, getNew k) }

/-- Normalization of one deployed secret entry to its stable fields
(lines 1286-1294). -/
def normalizeDeployedSecret : DeployedSecret → List (String × Value)
  | .dict m => [("backend", pyGet m "backend"), ("stable_ref", srefOf m)]
  | .scalar v => [("backend", Value.vnull), ("stable_ref", v)]

/-- The plan/diff record returned by `diff_state` (lines 1267-1310).
In the CREATE branch the source omits the `deployed_at` key; `none` encodes
both that omission and a present-but-null `applied_at`. -/
structure StateDiff where
  env : String
  provider : String
  status : String
  config : MapDiff Value
  secrets : MapDiff (List (String × Value))
  deployed_at : Option Value
deriving DecidableEq, Repr

/-- `diff_state` (lines 1267-1310). -/
def diff_state (desired : DesiredState) (deployed : Option DeployedRecord) :
    StateDiff :=
  match deployed with
  | none =>
    { env := desired.env, provider := desired.provider, status := "CREATE"
      config := { added := desired.config, removed := [], changed := [] }
      secrets := { added := desired.secrets, removed := [], changed := [] }
      deployed_at := none }
  | some dep =>
    let oldCfg := dep.config.getD []
    let oldSec := dep.secrets.getD []
    let normalizedOldSec := oldSec.map fun p => (p.1, normalizeDeployedSecret p.2)
    let cfgDiff := diff_maps (fun a b => a == b) Value.vnull oldCfg desired.config
    let secDiff := diff_maps dictEq [] normalizedOldSec desired.secrets
    let status :=
      if cfgDiff.added ≠ [] ∨ cfgDiff.removed ≠ [] ∨ cfgDiff.changed ≠ [] ∨
         secDiff.added ≠ [] ∨ secDiff.removed ≠ [] ∨ secDiff.changed ≠ []
      then "UPDATE" else "NOOP"
    { env := desired.env, provider := desired.provider, status := status
      config := cfgDiff, secrets := secDiff, deployed_at := dep.applied_at }

/-! ## Mockcloud apply and rotate (lines 1777-1812 and 1990-2035) -/

/-- `prev = existing_secrets.get(name)` guarded by `isinstance(prev, dict)`
(lines 1788, 2020-2022). -/
def prevSecretDict (existing : List (String × DeployedSecret)) (name : String) :
    Option (List (String × Value)) :=
  match alookup existing name with
  | some (.dict m) => some m
  | _ => none

/-- Version/rotation metadata preserved by the apply loop (lines 1789-1793):
`int(prev.get("version") or 1)` and `prev.get("rotated_at")`, defaulting to
`(1, None)` for a newly-seen secret. -/
def applyVersionRotated : Option (List (String × Value)) → Except Err (Int × Value)
  | none => Except.ok (1, Value.vnull)
  | some m =>
    let x := pyGet m "version"
    let rotated := pyGet m "rotated_at"
    if pyTruthy x then
      match pyInt x with
      | some n => Except.ok (n, rotated)
      | none => Except.error (.badVersionValue x)
    else Except.ok (1, rotated)

/-- Building one persisted secret entry in `apply_state_mockcloud`
(lines 1786-1799). -/
def applySecretEntry (existing : List (String × DeployedSecret)) (name : String)
    (meta : List (String × Value)) : Except Err DeployedSecret :=
  match applyVersionRotated (prevSecretDict existing name) with
  | Except.error e => Except.error e
  | Except.ok (version, rotated) =>
    Except.ok (.dict
      [("backend", pyGet meta "backend"),
       ("stable_ref", srefOf meta),
       ("version", .vint version),
       ("rotated_at", rotated)])

/-- `existing_secrets` (lines 1782-1784). -/
def applyExisting : Option DeployedRecord → List (String × DeployedSecret)
  | some d => d.secrets.getD []
  | none => []

/-- The `secrets_with_meta` loop (lines 1786-1799). -/
def applySecretsWithMeta (existing : List (String × DeployedSecret))
    (secrets : List (String × List (String × Value))) :
    Except Err (List (String × DeployedSecret)) :=
  exFoldl
    (fun acc (p : String × List (String × Value)) =>
      match applySecretEntry existing p.1 p.2 with
      | Except.error e => Except.error e
      | Except.ok entry => Except.ok (pyDictInsert acc p.1 entry))
    [] secrets

/-- `apply_state_mockcloud` (lines 1777-1812).  `deployed` is the current
content of the per-environment mock state file (`none` when absent); `now` is
`utc_now_iso()`.  Writing the state/context files is I/O; the function returns
the record the source writes and then returns. -/
def apply_state_mockcloud (deployed : Option DeployedRecord)
    (desired : DesiredState) (now : String) : Except Err DeployedRecord :=
  match applySecretsWithMeta (applyExisting deployed) desired.secrets with
  | Except.error e => Except.error e
  | Except.ok secretsWithMeta =>
    Except.ok {
      env := desired.env
      provider := desired.provider
      runtime := desired.runtime
      applied_at := some (.vstr now)
      config := some desired.config
      secrets := some secretsWithMeta
      var_to_secret_ref := desired.var_to_secret_ref }

/-- `prev_version = int(prev.get("version") or 0) if isinstance(prev, dict)
else 0` (lines 2021-2023). -/
def rotatePrevVersion : Option (List (String × Value)) → Except Err Int
  | none => Except.ok 0
  | some m =>
    let x := pyGet m "version"
    if pyTruthy x then
      match pyInt x with
      | some n => Except.ok n
      | none => Except.error (.badVersionValue x)
    else Except.ok 0

/-- The state mutation of `rotate_secret` (lines 1990-2035), given the already
built desired state and the loaded deployed record (the source dies when the
record is absent, before this point).  Regenerating and writing the random mock
secret value (lines 2012-2014) is I/O on the secret store and does not touch
the returned record; `now` stands for both `utc_now_iso()` calls
(lines 2029/2032). -/
def rotate_secret_state (desired : DesiredState) (deployed : DeployedRecord)
    (secret_name : String) (now : String) : Except Err DeployedRecord :=
  if desired.provider ≠ "mockcloud" then
    Except.error (.rotateUnsupportedProvider desired.provider)
  else
    match alookup desired.secrets secret_name with
    | none => Except.error (.secretNotInDesired secret_name desired.env)
    | some meta =>
      if pyGet meta "backend" ≠ Value.vstr "mock" then
        Except.error (.rotateBackendUnsupported (pyGet meta "backend"))
      else
        match rotatePrevVersion (prevSecretDict (deployed.secrets.getD []) secret_name) with
        | Except.error e => Except.error e
        | Except.ok prevVersion =>
          Except.ok { deployed with
            secrets := some (pyDictInsert (deployed.secrets.getD []) secret_name
              (.dict
                [("backend", pyGet meta "backend"),
                 ("stable_ref", srefOf meta),
                 ("version", .vint (prevVersion + 1)),
                 ("rotated_at", .vstr now)]))
            applied_at := some (.vstr now) }

/-! ## Concrete inputs used by counterexamples and witnesses -/

/-- A catch-all cloud target selecting the mockcloud provider
(`match: {}` matches every input with specificity 0). -/
def mockTarget : TargetRule :=
  { id := none
    tmatch := some { env := none, workload := none }
    tset := some { provider := some "mockcloud", runtime := none,
                   env_file_name := none, deploy_dir := none, compose_dir := none,
                   health_url := none, health_timeout_ms := none } }

/-- A minimal policy: all defaults, no auth rules, no detection providers, one
catch-all mockcloud target. -/
def basePolicy : PolicyEnvCfg :=
  { default_auth_mode := none, default_preflight_mode := none, fallback_dir := none
    rules := [], detect_providers := []
    cloud_defaults := { runtime := none, env_file_name := none }
    cloud_targets := [mockTarget], bws := none }

/-- The policy decision `basePolicy` yields for env `dev`. -/
def baseDecision : PolicyDecision :=
  { env := "dev", runtime_target := "ecs", workload := none
    auth_mode := "auto", preflight_mode := "warn", rule_id := none
    fallback_dir := ".ai/.tmp/env/fallback", ak_fallback_record := false }

/-- The cloud target `basePolicy` yields for env `dev`. -/
def baseTarget : CloudTarget :=
  { target_id := none, provider := "mockcloud", provider_raw := "mockcloud"
    runtime := none, env_file_name := "dev.env", deploy_dir := none
    compose_dir := none, health_url := none, health_timeout_ms := 5000 }

/-- C6 counterexample: `APP_ENV` scoped to `prod` only. -/
def cx6_var : ContractVar :=
  { name := "APP_ENV", vtype := "string", required := false, default := none
    secret := false, secret_ref := none, scopes := some ["prod"], state := "active"
    deprecate_after := none, replacement := none, rename_from := none }

/-- The desired state the builder produces for `cx6_var` under `basePolicy`,
env `dev`: `APP_ENV` is force-set although `dev` is out of its scope set. -/
def cx6_state : DesiredState :=
  { env := "dev", provider := "mockcloud", runtime := none
    config := [("APP_ENV", Value.vstr "dev")]
    secrets := [], secrets_cfg := [], var_to_secret_ref := []
    warnings := [], envfile := none
    policy_decision := baseDecision, target := baseTarget }

/-- Specificity as claim C5's words define it: the count of declared predicate
keys, whether or not their value is null.  Compared against the source's
count of non-null-valued keys (`ruleSpecificity`). -/
def claimSpecificity (m : RuleMatch) : Nat :=
  (if m.env.isSome then 1 else 0) + (if m.runtime_target.isSome then 1 else 0) +
  (if m.workload.isSome then 1 else 0)

/-- C5 counterexample, rule 1: `match: {env: null, runtime_target: "ecs"}` —
two declared predicate keys, one of them null-valued. -/
def cx5_r1 : Rule :=
  { id := none
    rmatch := some ⟨some none, some (some "ecs"), none⟩
    set_auth_mode := none
    set_preflight_mode := none
    set_ak_fallback_record := false }

/-- C5 counterexample, rule 2: `match: {runtime_target: "ecs"}`. -/
def cx5_r2 : Rule :=
  { id := none
    rmatch := some ⟨none, some (some "ecs"), none⟩
    set_auth_mode := none
    set_preflight_mode := none
    set_ak_fallback_record := false }

def cx5_policy : PolicyEnvCfg := { basePolicy with rules := [cx5_r1, cx5_r2] }

/-- C3's agreement relation on one deployed secret entry: the entries are JSON
objects that agree outside the volatile `version`/`rotated_at` fields, or are
equal outright. -/
def entryAgrees : DeployedSecret → DeployedSecret → Prop
  | .dict m1, .dict m2 =>
    ∀ k, k ≠ "version" → k ≠ "rotated_at" → alookup m1 k = alookup m2 k
  | e1, e2 => e1 = e2

/-- C3's agreement relation on the secrets maps of two deployed records. -/
def secretsAgree :
    Option (List (String × DeployedSecret)) → Option (List (String × DeployedSecret)) → Prop
  | none, none => True
  | some s1, some s2 => List.Forall₂ (fun p q => p.1 = q.1 ∧ entryAgrees p.2 q.2) s1 s2
  | _, _ => False

/-- The desired-secret well-formedness C1 establishes for built states:
unique names and two-field `{backend, stable_ref}` entries with string values. -/
def SecretsWellFormed (secrets : List (String × List (String × Value))) : Prop :=
  (secrets.map Prod.fst).Nodup ∧
  ∀ p ∈ secrets, ∃ b r,
    p.2 = [("backend", Value.vstr b), ("stable_ref", Value.vstr r)]

/-- A secret-backed contract variable for the witnesses: `DB_PASSWORD`,
referencing the secret-reference entry `db_password`. -/
def wSecretVar : ContractVar :=
  { name := "DB_PASSWORD", vtype := "string", required := false, default := none
    secret := true, secret_ref := some "db_password", scopes := none, state := "active"
    deprecate_after := none, replacement := none, rename_from := none }

/-- A mock-backend secret-reference entry for `db_password`. -/
def wSecretCfg : SecretCfg :=
  { backend := "mock", env_var := none, path := none, scope := none
    project_id := none, project_name := none, key := none }

/-- The desired-secret metadata the builder records for `db_password`. -/
def wMeta : List (String × Value) :=
  [("backend", Value.vstr "mock"), ("stable_ref", Value.vstr "mock://dev/db_password")]

/-- The desired state built from `[wSecretVar]` under `basePolicy`, env `dev`. -/
def wDesired : DesiredState :=
  { env := "dev", provider := "mockcloud", runtime := none
    config := []
    secrets := [("db_password", wMeta)]
    secrets_cfg := [("db_password", wSecretCfg)]
    var_to_secret_ref := [("DB_PASSWORD", "db_password")]
    warnings := [], envfile := none
    policy_decision := baseDecision, target := baseTarget }

/-- The deployed record the first mockcloud apply writes from `wDesired`. -/
def wApplied : DeployedRecord :=
  { env := "dev", provider := "mockcloud", runtime := none
    applied_at := some (Value.vstr "T1"), config := some []
    secrets := some [("db_password", DeployedSecret.dict
      [("backend", Value.vstr "mock"), ("stable_ref", Value.vstr "mock://dev/db_password"),
       ("version", Value.vint 1), ("rotated_at", Value.vnull)])]
    var_to_secret_ref := [("DB_PASSWORD", "db_password")] }

/-- `wApplied` after rotations happened elsewhere: same stable secret fields,
different `version`/`rotated_at`. -/
def c3w_dep2 : DeployedRecord :=
  { wApplied with secrets := some [("db_password", DeployedSecret.dict
      [("backend", Value.vstr "mock"), ("stable_ref", Value.vstr "mock://dev/db_password"),
       ("version", Value.vint 7), ("rotated_at", Value.vstr "T9")])] }

/-- A scoped, non-`APP_ENV` contract variable for the C6 witness. -/
def c6w_var : ContractVar :=
  { name := "FOO", vtype := "string", required := false, default := some (Value.vstr "bar")
    secret := false, secret_ref := none, scopes := some ["prod"], state := "active"
    deprecate_after := none, replacement := none, rename_from := none }

/-- The desired state built from `[c6w_var]` for env `dev`: `FOO` is excluded. -/
def c6w_state : DesiredState :=
  { env := "dev", provider := "mockcloud", runtime := none
    config := [], secrets := [], secrets_cfg := [], var_to_secret_ref := []
    warnings := [], envfile := none
    policy_decision := baseDecision, target := baseTarget }

/-- A contract variable carrying a rename alias, for the C8 witness. -/
def c8w_new : ContractVar :=
  { name := "NEW_KEY", vtype := "string", required := false, default := none
    secret := false, secret_ref := none, scopes := none, state := "active"
    deprecate_after := none, replacement := none, rename_from := some "OLD_KEY" }

/-- The desired state built from `[c8w_new]` with values overlay
`OLD_KEY = "x"`: the value lands under `NEW_KEY` with a legacy-key warning. -/
def c8w_state : DesiredState :=
  { env := "dev", provider := "mockcloud", runtime := none
    config := [("NEW_KEY", Value.vstr "x")]
    secrets := [], secrets_cfg := [], var_to_secret_ref := []
    warnings := [Warn.legacyKey "OLD_KEY" "NEW_KEY"], envfile := none
    policy_decision := baseDecision, target := baseTarget }

/-- C5 witness rule with two non-null predicate values (engine specificity 2). -/
def c5w_hi : Rule :=
  { id := some "hi"
    rmatch := some ⟨some (some "e"), some (some "ecs"), none⟩
    set_auth_mode := some "role-only"
    set_preflight_mode := none
    set_ak_fallback_record := false }

/-- C5 witness rule with one non-null predicate value (engine specificity 1). -/
def c5w_lo : Rule :=
  { id := some "lo"
    rmatch := some ⟨none, some (some "ecs"), none⟩
    set_auth_mode := none
    set_preflight_mode := none
    set_ak_fallback_record := false }

def c5w_policy : PolicyEnvCfg := { basePolicy with rules := [c5w_hi, c5w_lo] }

/-- An AWS-style detection block whose access-key signal fires on `c10w_env`. -/
def c10w_detect : ProviderDetect :=
  { env_credential_sets := [⟨["AWS_ACCESS_KEY_ID"], ["AWS_SECRET_ACCESS_KEY"], []⟩]
    env_var_presence := [], credential_file_paths := [] }

def c10w_policy : PolicyEnvCfg :=
  { basePolicy with detect_providers := [("aws", c10w_detect)] }

/-- A resolved decision in `ak-only` auth mode. -/
def c10w_decision : PolicyDecision := { baseDecision with auth_mode := "ak-only" }

/-- A resolved decision in `role-only` auth mode with `fail` preflight. -/
def c10w_decision2 : PolicyDecision :=
  { baseDecision with auth_mode := "role-only", preflight_mode := "fail" }

/-- An environment map carrying a complete access-key pair. -/
def c10w_env : List (String × Value) :=
  [("AWS_ACCESS_KEY_ID", Value.vstr "id"), ("AWS_SECRET_ACCESS_KEY", Value.vstr "sek")]

/-! ## Basic lemmas about the dict and fold primitives -/

theorem alookup_pyDictInsert_self {α : Type} (m : List (String × α)) (k : String) (v : α) :
    alookup (pyDictInsert m k v) k = some v := by
  induction m with
  | nil => simp [pyDictInsert, alookup]
  | cons p rest ih =>
    by_cases h : p.1 = k
    · simp [pyDictInsert, h, alookup]
    · simp [pyDictInsert, h, alookup, ih]

theorem alookup_pyDictInsert_ne {α : Type} (m : List (String × α)) (k k' : String) (v : α)
    (h : k' ≠ k) : alookup (pyDictInsert m k v) k' = alookup m k' := by
  have hne : ¬ k = k' := fun hh => h hh.symm
  induction m with
  | nil =>
    simp only [pyDictInsert, alookup]
    rw [if_neg hne]
  | cons p rest ih =>
    rcases p with ⟨pk, pv⟩
    by_cases hp : pk = k
    · subst hp
      simp only [pyDictInsert, if_pos rfl, alookup]
      rw [if_neg hne, if_neg hne]
    · simp only [pyDictInsert, if_neg hp, alookup]
      by_cases hpk : pk = k'
      · rw [if_pos hpk, if_pos hpk]
      · rw [if_neg hpk, if_neg hpk]
        exact ih

theorem alookup_pyDictInsert_elim {α : Type} {m : List (String × α)} {k n : String}
    {v w : α} (h : alookup (pyDictInsert m k v) n = some w) :
    (n = k ∧ w = v) ∨ alookup m n = some w := by
  by_cases hn : n = k
  · subst hn
    rw [alookup_pyDictInsert_self] at h
    exact Or.inl ⟨rfl, (Option.some_injective _ h).symm⟩
  · rw [alookup_pyDictInsert_ne m k n v hn] at h
    exact Or.inr h

theorem mem_pyDictInsert_elim {α : Type} {m : List (String × α)} {k : String} {v : α}
    {p : String × α} (h : p ∈ pyDictInsert m k v) : p ∈ m ∨ p = (k, v) := by
  induction m with
  | nil =>
    simp only [pyDictInsert, List.mem_singleton] at h
    exact Or.inr h
  | cons q rest ih =>
    rcases q with ⟨qk, qv⟩
    by_cases hq : qk = k
    · simp only [pyDictInsert, if_pos hq] at h
      rcases List.mem_cons.mp h with h | h
      · exact Or.inr h
      · exact Or.inl (List.mem_cons_of_mem _ h)
    · simp only [pyDictInsert, if_neg hq] at h
      rcases List.mem_cons.mp h with h | h
      · exact Or.inl (List.mem_cons.mpr (Or.inl h))
      · rcases ih h with h' | h'
        · exact Or.inl (List.mem_cons_of_mem _ h')
        · exact Or.inr h'

theorem alookup_mem {α : Type} {m : List (String × α)} {k : String} {v : α}
    (h : alookup m k = some v) : (k, v) ∈ m := by
  induction m with
  | nil => simp [alookup] at h
  | cons p rest ih =>
    rcases p with ⟨pk, pv⟩
    by_cases hp : pk = k
    · simp only [alookup, if_pos hp] at h
      injection h with h
      exact List.mem_cons.mpr (Or.inl (by rw [hp, h]))
    · simp only [alookup, if_neg hp] at h
      exact List.mem_cons_of_mem _ (ih h)

theorem alookup_isSome_pyDictInsert {α : Type} (m : List (String × α)) (k n : String)
    (v : α) (h : (alookup m n).isSome) : (alookup (pyDictInsert m k v) n).isSome := by
  by_cases hn : n = k
  · subst hn
    simp [alookup_pyDictInsert_self]
  · rwa [alookup_pyDictInsert_ne m k n v hn]

theorem alookup_eq_none_of_not_mem_keys {α : Type} {m : List (String × α)} {k : String}
    (h : k ∉ m.map Prod.fst) : alookup m k = none := by
  induction m with
  | nil => simp [alookup]
  | cons p rest ih =>
    rcases p with ⟨pk, pv⟩
    simp only [List.map_cons, List.mem_cons] at h
    push_neg at h
    simp only [alookup]
    rw [if_neg (fun hh : pk = k => h.1 hh.symm)]
    exact ih h.2

theorem pyDictInsert_append_of_not_mem {α : Type} {m : List (String × α)} {k : String}
    (v : α) (h : k ∉ m.map Prod.fst) : pyDictInsert m k v = m ++ [(k, v)] := by
  induction m with
  | nil => simp [pyDictInsert]
  | cons p rest ih =>
    rcases p with ⟨pk, pv⟩
    simp only [List.map_cons, List.mem_cons] at h
    push_neg at h
    simp only [pyDictInsert, List.cons_append]
    rw [if_neg (fun hh : pk = k => h.1 hh.symm), ih h.2]

/-- Invariant preservation through a validating fold. -/
theorem exFoldl_invariant {α β : Type} {f : α → β → Except Err α} {l : List β}
    {a b : α} (P : α → Prop)
    (hstep : ∀ acc x acc', x ∈ l → P acc → f acc x = Except.ok acc' → P acc')
    (h0 : P a) (h : exFoldl f a l = Except.ok b) : P b := by
  induction l generalizing a with
  | nil =>
    simp only [exFoldl] at h
    exact (Except.ok.inj h) ▸ h0
  | cons x xs ih =>
    simp only [exFoldl] at h
    cases hfa : f a x with
    | error e => rw [hfa] at h; cases h
    | ok a' =>
      rw [hfa] at h
      exact ih (fun acc y acc' hy => hstep acc y acc' (List.mem_cons_of_mem _ hy))
        (hstep a x a' (List.mem_cons_self _ _) h0 hfa) h

/-- Splitting a validating fold over an append. -/
theorem exFoldl_append_ok {α β : Type} {f : α → β → Except Err α} {l1 l2 : List β}
    {a b : α} (h : exFoldl f a (l1 ++ l2) = Except.ok b) :
    ∃ m, exFoldl f a l1 = Except.ok m ∧ exFoldl f m l2 = Except.ok b := by
  induction l1 generalizing a with
  | nil => exact ⟨a, rfl, h⟩
  | cons x xs ih =>
    simp only [List.cons_append, exFoldl] at h ⊢
    cases hfa : f a x with
    | error e => rw [hfa] at h; cases h
    | ok a' =>
      rw [hfa] at h
      exact ih h

/-- A fold cannot succeed past an element on which the step always fails. -/
theorem exFoldl_ne_ok_of_mem_error {α β : Type} {f : α → β → Except Err α}
    {l : List β} {a b : α} {x : β} (hx : x ∈ l)
    (herr : ∀ acc, ∃ e, f acc x = Except.error e) :
    exFoldl f a l ≠ Except.ok b := by
  induction l generalizing a with
  | nil => cases hx
  | cons y ys ih =>
    intro h
    simp only [exFoldl] at h
    rcases List.mem_cons.mp hx with hxy | hxs
    · subst hxy
      rcases herr a with ⟨e, he⟩
      rw [he] at h
      cases h
    · cases hfa : f a y with
      | error e => rw [hfa] at h; cases h
      | ok a' =>
        rw [hfa] at h
        exact ih hxs h

theorem alookup_byNameOf {contract : List ContractVar} {n : String} {v : ContractVar}
    (h : alookup (byNameOf contract) n = some v) : v ∈ contract ∧ v.name = n := by
  suffices H : ∀ (acc : List (String × ContractVar)),
      (∀ n' v', alookup acc n' = some v' → v' ∈ contract ∧ v'.name = n') →
      (∀ x ∈ contract, True) →
      ∀ n' v', alookup (contract.foldl (fun m x => pyDictInsert m x.name x) acc) n' = some v' →
        v' ∈ contract ∧ v'.name = n' by
    exact H [] (by simp [alookup]) (fun _ _ => trivial) n v h
  suffices H : ∀ (l : List ContractVar) (acc : List (String × ContractVar)),
      (∀ n' v', alookup acc n' = some v' → v' ∈ contract ∧ v'.name = n') →
      (∀ x ∈ l, x ∈ contract) →
      ∀ n' v', alookup (l.foldl (fun m x => pyDictInsert m x.name x) acc) n' = some v' →
        v' ∈ contract ∧ v'.name = n' by
    intro acc hacc _
    exact H contract acc hacc (fun x hx => hx)
  intro l
  induction l with
  | nil => intro acc hacc _ n' v' h'; exact hacc n' v' h'
  | cons x xs ih =>
    intro acc hacc hl n' v' h'
    refine ih (pyDictInsert acc x.name x) ?_ (fun y hy => hl y (List.mem_cons_of_mem _ hy)) n' v' h'
    intro n'' v'' h''
    rcases alookup_pyDictInsert_elim h'' with ⟨hn, hv⟩ | h''
    · exact ⟨hv ▸ hl x (List.mem_cons_self _ _), hv ▸ hn ▸ rfl⟩
    · exact hacc n'' v'' h''

theorem alookup_renameMapOf {contract : List ContractVar} {old nm : String}
    (h : alookup (renameMapOf contract) old = some nm) :
    ∃ v ∈ contract, v.rename_from = some old ∧ v.name = nm := by
  suffices H : ∀ (l : List ContractVar) (acc : List (String × String)),
      (∀ o m, alookup acc o = some m → ∃ v ∈ contract, v.rename_from = some o ∧ v.name = m) →
      (∀ x ∈ l, x ∈ contract) →
      ∀ o m,
        alookup (l.foldl (fun mm x =>
          match x.rename_from with
          | some rf => pyDictInsert mm rf x.name
          | none => mm) acc) o = some m →
        ∃ v ∈ contract, v.rename_from = some o ∧ v.name = m by
    exact H contract [] (by simp [alookup]) (fun x hx => hx) old nm h
  intro l
  induction l with
  | nil => intro acc hacc _ o m h'; exact hacc o m h'
  | cons x xs ih =>
    intro acc hacc hl o m h'
    cases hrf : x.rename_from with
    | none =>
      refine ih acc hacc (fun y hy => hl y (List.mem_cons_of_mem _ hy)) o m ?_
      simpa [hrf] using h'
    | some rf =>
      refine ih (pyDictInsert acc rf x.name) ?_
        (fun y hy => hl y (List.mem_cons_of_mem _ hy)) o m (by simpa [hrf] using h')
      intro o' m' h''
      rcases alookup_pyDictInsert_elim h'' with ⟨ho, hm⟩ | h''
      · exact ⟨x, hl x (List.mem_cons_self _ _), ho ▸ hrf, hm ▸ rfl⟩
      · exact hacc o' m' h''

/-- Two variables of a name-nodup contract with equal names are equal. -/
theorem contract_name_inj {contract : List ContractVar}
    (hnd : (contract.map ContractVar.name).Nodup) {v w : ContractVar}
    (hv : v ∈ contract) (hw : w ∈ contract) (h : v.name = w.name) : v = w :=
  List.inj_on_of_nodup_map hnd hv hw h

/-- The rename map of a name-nodup contract is injective. -/
theorem renameMap_inj {contract : List ContractVar}
    (hnd : (contract.map ContractVar.name).Nodup) {a b n : String}
    (ha : alookup (renameMapOf contract) a = some n)
    (hb : alookup (renameMapOf contract) b = some n) : a = b := by
  rcases alookup_renameMapOf ha with ⟨v1, hv1, hrf1, hn1⟩
  rcases alookup_renameMapOf hb with ⟨v2, hv2, hrf2, hn2⟩
  have : v1 = v2 := contract_name_inj hnd hv1 hv2 (hn1.trans hn2.symm)
  subst this
  rw [hrf1] at hrf2
  exact Option.some_injective _ hrf2

/-! ## Lemmas about the diff engine -/

theorem dictEq_refl (m : List (String × Value)) : dictEq m m = true := by
  simp [dictEq, List.all_eq_true]

/-- Diffing a map against itself yields empty buckets, for any reflexive value
comparison. -/
theorem diff_maps_self {α : Type} (eqv : α → α → Bool) (dflt : α)
    (m : List (String × α)) (hrefl : ∀ a, eqv a a = true) :
    diff_maps eqv dflt m m = ⟨[], [], []⟩ := by
  have h1 : (((m.map Prod.fst).dedup).filter fun k =>
      decide (k ∉ (m.map Prod.fst).dedup)) = [] := by
    rw [List.filter_eq_nil_iff]
    intro k hk
    simp [hk]
  have h2 : ∀ L : List String,
      (L.filterMap fun k =>
        if eqv ((alookup m k).getD dflt) ((alookup m k).getD dflt)
        then none
        else some (k, (alookup m k).getD dflt, (alookup m k).getD dflt)) = [] := by
    intro L
    rw [List.filterMap_eq_nil_iff]
    intro k _
    rw [hrefl]
    simp
  simp only [diff_maps, h1]
  refine congrArg₂ (MapDiff.mk ([] : List (String × α))) ?_ (h2 _)
  simp [sortStr, List.insertionSort]

/-- Claim C4 helper: `diff_state` against an absent record, spelled out. -/
theorem diff_state_none (desired : DesiredState) :
    diff_state desired none =
      { env := desired.env, provider := desired.provider, status := "CREATE"
        config := { added := desired.config, removed := [], changed := [] }
        secrets := { added := desired.secrets, removed := [], changed := [] }
        deployed_at := none } := rfl

theorem normalize_eq_of_agrees {e1 e2 : DeployedSecret} (h : entryAgrees e1 e2) :
    normalizeDeployedSecret e1 = normalizeDeployedSecret e2 := by
  cases e1 with
  | dict m1 =>
    cases e2 with
    | dict m2 =>
      have hb := h "backend" (by decide) (by decide)
      have hs := h "stable_ref" (by decide) (by decide)
      have hr := h "ref" (by decide) (by decide)
      simp [normalizeDeployedSecret, srefOf, pyGet, hb, hs, hr]
    | scalar v => cases h
  | scalar v =>
    cases e2 with
    | dict m2 => cases h
    | scalar w => simp [entryAgrees] at h; rw [h]

theorem normalizedMap_eq_of_agrees {s1 s2 : List (String × DeployedSecret)}
    (h : List.Forall₂ (fun p q => p.1 = q.1 ∧ entryAgrees p.2 q.2) s1 s2) :
    s1.map (fun p => (p.1, normalizeDeployedSecret p.2)) =
    s2.map (fun p => (p.1, normalizeDeployedSecret p.2)) := by
  induction h with
  | nil => rfl
  | cons hpq _ ih =>
    simp only [List.map_cons, ih]
    rw [hpq.1, normalize_eq_of_agrees hpq.2]

theorem diff_state_some_config (desired : DesiredState) (d : DeployedRecord) :
    (diff_state desired (some d)).config =
      diff_maps (fun a b => a == b) Value.vnull (d.config.getD []) desired.config := rfl

theorem diff_state_some_secrets (desired : DesiredState) (d : DeployedRecord) :
    (diff_state desired (some d)).secrets =
      diff_maps dictEq []
        ((d.secrets.getD []).map fun p => (p.1, normalizeDeployedSecret p.2))
        desired.secrets := rfl

theorem diff_state_some_status (desired : DesiredState) (d : DeployedRecord) :
    (diff_state desired (some d)).status =
      if (diff_state desired (some d)).config.added ≠ [] ∨
         (diff_state desired (some d)).config.removed ≠ [] ∨
         (diff_state desired (some d)).config.changed ≠ [] ∨
         (diff_state desired (some d)).secrets.added ≠ [] ∨
         (diff_state desired (some d)).secrets.removed ≠ [] ∨
         (diff_state desired (some d)).secrets.changed ≠ []
      then "UPDATE" else "NOOP" := rfl

/-- **C4.** For every desired state, `diff_state` with an absent (`None`)
deployed record returns status `CREATE`, reporting the entire desired config
map and the entire desired secrets map as additions, with empty removed and
changed buckets. -/
theorem c4_diff_create (desired : DesiredState) :
    diff_state desired none =
      { env := desired.env, provider := desired.provider, status := "CREATE"
        config := { added := desired.config, removed := [], changed := [] }
        secrets := { added := desired.secrets, removed := [], changed := [] }
        deployed_at := none } := rfl

/-- **C3.** `diff_state` against a non-absent deployed record compares secret
metadata only on `backend` and `stable_ref`: two deployed records that differ
only in secrets' `version`/`rotated_at` fields yield identical diffs; and the
status is `NOOP` exactly when all added/removed/changed buckets are empty for
both the config diff and the secrets diff, otherwise `UPDATE`. -/
theorem c3_diff_stable_fields :
    (∀ (desired : DesiredState) (d1 d2 : DeployedRecord),
      d1.config = d2.config → d1.applied_at = d2.applied_at →
      secretsAgree d1.secrets d2.secrets →
      diff_state desired (some d1) = diff_state desired (some d2)) ∧
    (∀ (desired : DesiredState) (d : DeployedRecord),
      ((diff_state desired (some d)).status = "NOOP" ↔
        ((diff_state desired (some d)).config.added = [] ∧
         (diff_state desired (some d)).config.removed = [] ∧
         (diff_state desired (some d)).config.changed = [] ∧
         (diff_state desired (some d)).secrets.added = [] ∧
         (diff_state desired (some d)).secrets.removed = [] ∧
         (diff_state desired (some d)).secrets.changed = [])) ∧
      ((diff_state desired (some d)).status = "NOOP" ∨
       (diff_state desired (some d)).status = "UPDATE")) := by
  constructor
  · intro desired d1 d2 hcfg happ hsec
    have hnorm : ((d1.secrets.getD []).map fun p => (p.1, normalizeDeployedSecret p.2)) =
        ((d2.secrets.getD []).map fun p => (p.1, normalizeDeployedSecret p.2)) := by
      cases h1 : d1.secrets with
      | none =>
        cases h2 : d2.secrets with
        | none => rfl
        | some s2 => rw [h1, h2] at hsec; exact hsec.elim
      | some s1 =>
        cases h2 : d2.secrets with
        | none => rw [h1, h2] at hsec; exact hsec.elim
        | some s2 =>
          rw [h1, h2] at hsec
          simpa using normalizedMap_eq_of_agrees hsec
    simp only [diff_state]
    rw [hcfg, happ, hnorm]
  · intro desired d
    rw [diff_state_some_status desired d]
    by_cases hcond : (diff_state desired (some d)).config.added ≠ [] ∨
        (diff_state desired (some d)).config.removed ≠ [] ∨
        (diff_state desired (some d)).config.changed ≠ [] ∨
        (diff_state desired (some d)).secrets.added ≠ [] ∨
        (diff_state desired (some d)).secrets.removed ≠ [] ∨
        (diff_state desired (some d)).secrets.changed ≠ []
    · rw [if_pos hcond]
      constructor
      · constructor
        · intro h; exact absurd h (by decide)
        · intro h
          rcases hcond with h' | h' | h' | h' | h' | h' <;>
            first
            | exact absurd h.1 h'
            | exact absurd h.2.1 h'
            | exact absurd h.2.2.1 h'
            | exact absurd h.2.2.2.1 h'
            | exact absurd h.2.2.2.2.1 h'
            | exact absurd h.2.2.2.2.2 h'
      · exact Or.inr rfl
    · rw [if_neg hcond]
      push_neg at hcond
      constructor
      · constructor
        · intro _
          exact ⟨hcond.1, hcond.2.1, hcond.2.2.1, hcond.2.2.2.1, hcond.2.2.2.2.1,
            hcond.2.2.2.2.2⟩
        · intro _; rfl
      · exact Or.inl rfl

/-! ## Lemmas about `apply_state_mockcloud` -/

theorem srefOf_applyEntryDict (b s' x y : Value) :
    srefOf [("backend", b), ("stable_ref", s'), ("version", x), ("rotated_at", y)] = s' := by
  by_cases h : s' = Value.vnull <;> simp [srefOf, pyGet, alookup, h]

/-- Normalizing the entry written by the apply loop recovers exactly the
desired entry's stable fields, whatever version/rotation metadata was kept. -/
theorem normalize_applySecretEntry {existing : List (String × DeployedSecret)}
    {n : String} {meta : List (String × Value)} {e : DeployedSecret}
    (h : applySecretEntry existing n meta = Except.ok e) :
    normalizeDeployedSecret e =
      [("backend", pyGet meta "backend"), ("stable_ref", srefOf meta)] := by
  unfold applySecretEntry at h
  cases hv : applyVersionRotated (prevSecretDict existing n) with
  | error e' => rw [hv] at h; cases h
  | ok vr =>
    rcases vr with ⟨version, rotated⟩
    rw [hv] at h
    injection h with h
    subst h
    simp [normalizeDeployedSecret, pyGet, alookup, srefOf_applyEntryDict]

/-- Shape of the secrets map built by the apply loop: under unique desired
secret names, it is (after stable-field normalization) the desired map itself
appended to the image of the accumulator. -/
theorem apply_secrets_fold_shape
    (existing : List (String × DeployedSecret)) :
    ∀ (l : List (String × List (String × Value)))
      (acc S : List (String × DeployedSecret)),
      (l.map Prod.fst).Nodup →
      (∀ p ∈ l, p.1 ∉ acc.map Prod.fst) →
      exFoldl
        (fun acc (p : String × List (String × Value)) =>
          match applySecretEntry existing p.1 p.2 with
          | Except.error e => Except.error e
          | Except.ok entry => Except.ok (pyDictInsert acc p.1 entry))
        acc l = Except.ok S →
      S.map (fun p => (p.1, normalizeDeployedSecret p.2)) =
        acc.map (fun p => (p.1, normalizeDeployedSecret p.2)) ++
        l.map (fun p => (p.1,
          [("backend", pyGet p.2 "backend"), ("stable_ref", srefOf p.2)])) := by
  intro l
  induction l with
  | nil =>
    intro acc S _ _ h
    simp only [exFoldl] at h
    injection h with h
    subst h
    simp
  | cons p tl ih =>
    intro acc S hnd hfresh h
    simp only [exFoldl] at h
    cases hap : applySecretEntry existing p.1 p.2 with
    | error e => rw [hap] at h; cases h
    | ok entry =>
      rw [hap] at h
      simp only at h
      have hfresh_p : p.1 ∉ acc.map Prod.fst := hfresh p (List.mem_cons_self _ _)
      rw [pyDictInsert_append_of_not_mem entry hfresh_p] at h
      have hnd0 : p.1 ∉ tl.map Prod.fst ∧ (tl.map Prod.fst).Nodup := by
        rw [List.map_cons] at hnd
        exact List.nodup_cons.mp hnd
      have hfresh' : ∀ q ∈ tl, q.1 ∉ (acc ++ [(p.1, entry)]).map Prod.fst := by
        intro q hq
        simp only [List.map_append, List.mem_append, List.map_cons, List.map_nil,
          List.mem_singleton]
        push_neg
        refine ⟨hfresh q (List.mem_cons_of_mem _ hq), ?_⟩
        intro hqe
        exact hnd0.1 (hqe ▸ List.mem_map_of_mem Prod.fst hq)
      have hstep := ih (acc ++ [(p.1, entry)]) S hnd0.2 hfresh' h
      rw [hstep]
      simp only [List.map_append, List.map_cons, List.map_nil]
      rw [normalize_applySecretEntry hap]
      simp

/-- **C2.** Applying is idempotent: whenever `apply_state_mockcloud` writes a
deployed record from a (well-formed) desired state, diffing the same desired
state against the just-written record yields status `NOOP` with empty
added/removed/changed buckets for both config and secrets. -/
theorem c2_apply_idempotent
    (desired : DesiredState) (deployed : Option DeployedRecord) (now : String)
    (rec : DeployedRecord)
    (hwf : SecretsWellFormed desired.secrets)
    (happ : apply_state_mockcloud deployed desired now = Except.ok rec) :
    diff_state desired (some rec) =
      { env := desired.env, provider := desired.provider, status := "NOOP"
        config := ⟨[], [], []⟩, secrets := ⟨[], [], []⟩
        deployed_at := some (Value.vstr now) } := by
  unfold apply_state_mockcloud at happ
  cases hS : applySecretsWithMeta (applyExisting deployed) desired.secrets with
  | error e => rw [hS] at happ; cases happ
  | ok S =>
    rw [hS] at happ
    injection happ with happ
    subst happ
    have hnorm : (S.map fun p => (p.1, normalizeDeployedSecret p.2)) = desired.secrets := by
      have hshape := apply_secrets_fold_shape (applyExisting deployed)
        desired.secrets [] S hwf.1 (by simp) hS
      rw [hshape]
      simp only [List.map_nil, List.nil_append]
      have : ∀ p ∈ desired.secrets,
          (p.1, [("backend", pyGet p.2 "backend"), ("stable_ref", srefOf p.2)]) = p := by
        intro p hp
        rcases hwf.2 p hp with ⟨b, r, hbr⟩
        rcases p with ⟨n, m⟩
        simp only at hbr
        subst hbr
        simp [pyGet, alookup, srefOf]
      calc (desired.secrets.map fun p => (p.1,
              [("backend", pyGet p.2 "backend"), ("stable_ref", srefOf p.2)]))
          = desired.secrets.map id := List.map_congr_left this
        _ = desired.secrets := List.map_id _
    simp only [diff_state, Option.getD_some]
    simp only [hnorm]
    rw [diff_maps_self (fun a b => a == b) Value.vnull desired.config
      (fun a => beq_self_eq_true' a)]
    rw [diff_maps_self dictEq [] desired.secrets dictEq_refl]
    simp

/-! ## Lemmas for first-apply and rotation (C9) -/

/-- With no prior deployed record every secret is newly seen: the apply loop
assigns version 1 and a null rotation timestamp. -/
theorem applySecretEntry_fresh (n : String) (m : List (String × Value)) :
    applySecretEntry [] n m = Except.ok (.dict
      [("backend", pyGet m "backend"), ("stable_ref", srefOf m),
       ("version", .vint 1), ("rotated_at", .vnull)]) := rfl

/-- Every entry of a freshly applied secrets map comes from a desired entry
with version 1 and null rotation timestamp. -/
theorem applySecretsWithMeta_fresh_mem
    {l : List (String × List (String × Value))} {S : List (String × DeployedSecret)}
    (h : applySecretsWithMeta [] l = Except.ok S) :
    ∀ q ∈ S, ∃ m', (q.1, m') ∈ l ∧ q.2 = DeployedSecret.dict
      [("backend", pyGet m' "backend"), ("stable_ref", srefOf m'),
       ("version", .vint 1), ("rotated_at", .vnull)] := by
  refine exFoldl_invariant
    (fun acc => ∀ q ∈ acc, ∃ m', (q.1, m') ∈ l ∧ q.2 = DeployedSecret.dict
      [("backend", pyGet m' "backend"), ("stable_ref", srefOf m'),
       ("version", .vint 1), ("rotated_at", .vnull)]) ?_ (by simp) h
  intro acc p acc' hp hP hstep
  rw [applySecretEntry_fresh p.1 p.2] at hstep
  simp only at hstep
  injection hstep with hstep
  subst hstep
  intro q hq
  rcases mem_pyDictInsert_elim hq with hq' | hq'
  · exact hP q hq'
  · subst hq'
    exact ⟨p.2, by simpa using hp, rfl⟩

/-- The secrets map built by the apply loop binds every desired secret name. -/
theorem applySecretsWithMeta_lookup_isSome
    {existing : List (String × DeployedSecret)} :
    ∀ {l : List (String × List (String × Value))}
      {acc S : List (String × DeployedSecret)},
      exFoldl
        (fun acc (p : String × List (String × Value)) =>
          match applySecretEntry existing p.1 p.2 with
          | Except.error e => Except.error e
          | Except.ok entry => Except.ok (pyDictInsert acc p.1 entry))
        acc l = Except.ok S →
      ∀ n, ((alookup acc n).isSome ∨ ∃ m, (n, m) ∈ l) → (alookup S n).isSome := by
  intro l
  induction l with
  | nil =>
    intro acc S h n hn
    simp only [exFoldl] at h
    injection h with h
    subst h
    rcases hn with hn | ⟨m, hm⟩
    · exact hn
    · cases hm
  | cons p tl ih =>
    intro acc S h n hn
    simp only [exFoldl] at h
    cases hap : applySecretEntry existing p.1 p.2 with
    | error e => rw [hap] at h; cases h
    | ok entry =>
      rw [hap] at h
      simp only at h
      rcases hn with hn | ⟨m, hm⟩
      · exact ih h n (Or.inl (alookup_isSome_pyDictInsert acc p.1 n entry hn))
      · rcases List.mem_cons.mp hm with hm' | hm'
        · have hnp : n = p.1 := congrArg Prod.fst hm'
          refine ih h n (Or.inl ?_)
          rw [hnp, alookup_pyDictInsert_self]
          rfl
        · exact ih h n (Or.inr ⟨m, hm'⟩)

/-- **C9.** Under mockcloud, the first apply assigns version 1 (and a null
rotation timestamp) to each newly-seen secret, and a subsequent
`rotate_secret` of that secret bumps the persisted version from 1 to 2 and
stamps the new rotation time, leaving the deployed non-secret config map
unchanged. -/
theorem c9_rotate_version
    (desired : DesiredState) (name : String) (meta : List (String × Value))
    (now1 now2 : String) (rec : DeployedRecord)
    (hmeta : alookup desired.secrets name = some meta)
    (hprov : desired.provider = "mockcloud")
    (hback : pyGet meta "backend" = Value.vstr "mock")
    (happ : apply_state_mockcloud none desired now1 = Except.ok rec) :
    (∃ entry, alookup (rec.secrets.getD []) name = some (DeployedSecret.dict entry) ∧
       alookup entry "version" = some (Value.vint 1) ∧
       alookup entry "rotated_at" = some Value.vnull) ∧
    (∃ rec2, rotate_secret_state desired rec name now2 = Except.ok rec2 ∧
       alookup (rec2.secrets.getD []) name = some (DeployedSecret.dict
         [("backend", pyGet meta "backend"),
          ("stable_ref", srefOf meta),
          ("version", Value.vint 2),
          ("rotated_at", Value.vstr now2)]) ∧
       rec2.config = rec.config) := by
  unfold apply_state_mockcloud at happ
  cases hS : applySecretsWithMeta (applyExisting none) desired.secrets with
  | error e => rw [hS] at happ; cases happ
  | ok S =>
    rw [hS] at happ
    injection happ with happ
    subst happ
    have hS' := hS
    unfold applySecretsWithMeta at hS'
    have hSome : (alookup S name).isSome :=
      @applySecretsWithMeta_lookup_isSome (applyExisting none) desired.secrets [] S
        hS' name (Or.inr ⟨meta, alookup_mem hmeta⟩)
    rcases Option.isSome_iff_exists.mp hSome with ⟨entryDS, hE⟩
    rcases applySecretsWithMeta_fresh_mem hS (name, entryDS) (alookup_mem hE)
      with ⟨m', _, hentry⟩
    simp only at hentry
    subst hentry
    constructor
    · exact ⟨_, hE, by simp [alookup], by simp [alookup]⟩
    · have hpv : rotatePrevVersion (prevSecretDict S name) = Except.ok 1 := by
        unfold prevSecretDict
        rw [hE]
        simp [rotatePrevVersion, pyGet, alookup, pyTruthy, pyInt]
      refine ⟨{ env := desired.env, provider := desired.provider,
                runtime := desired.runtime,
                applied_at := some (Value.vstr now2), config := some desired.config,
                secrets := some (pyDictInsert S name (DeployedSecret.dict
                  [("backend", pyGet meta "backend"), ("stable_ref", srefOf meta),
                   ("version", Value.vint 2), ("rotated_at", Value.vstr now2)])),
                var_to_secret_ref := desired.var_to_secret_ref }, ?_, ?_, rfl⟩
      · simp only [rotate_secret_state]
        rw [if_neg (by simp [hprov])]
        simp only [hmeta]
        rw [if_neg (by simp [hback])]
        simp only [Option.getD_some, hpv]
        norm_num
      · simp only [Option.getD_some]
        rw [alookup_pyDictInsert_self]

/-! ## C10: preflight outcome by auth mode -/

/-- **C10.** `run_policy_preflight` returns no errors and no warnings (and
records no evidence) whenever the resolved auth mode is `ak-only`, regardless
of which access-key or credential-file signals are detected; and whenever it
returns any error or warning, the auth mode was `role-only` or `auto`. -/
theorem c10_ak_only_preflight
    (pe : PolicyEnvCfg) (decision : PolicyDecision)
    (env_map : List (String × Value)) (check_files : Bool)
    (fileExists : String → Bool) :
    (decision.auth_mode = "ak-only" →
      run_policy_preflight pe decision env_map check_files fileExists = ([], [], false)) ∧
    (∀ errs warns recd,
      run_policy_preflight pe decision env_map check_files fileExists =
        (errs, warns, recd) →
      errs ≠ [] ∨ warns ≠ [] →
      decision.auth_mode = "role-only" ∨ decision.auth_mode = "auto") := by
  by_cases hoff : decision.preflight_mode = "off"
  · constructor
    · intro _
      simp [run_policy_preflight, hoff]
    · intro errs warns recd h hne
      simp [run_policy_preflight, hoff] at h
      rcases hne with hne | hne
      · exact absurd h.1 hne
      · exact absurd h.2.1 hne
  · constructor
    · intro hak
      simp [run_policy_preflight, hoff, hak]
    · intro errs warns recd h hne
      by_contra hcon
      push_neg at hcon
      have hempty : run_policy_preflight pe decision env_map check_files fileExists =
          ([], [], false) := by
        simp [run_policy_preflight, hoff, hcon.1, hcon.2]
      rw [hempty] at h
      injection h with h1 h2
      injection h2 with h2 h3
      rcases hne with hne | hne
      · exact hne h1.symm
      · exact hne h2.symm

/-! ## Inversion of a successful build -/

theorem buildStage2_ok_elim {contract : List ContractVar} {pe : PolicyEnvCfg}
    {values : List (String × Value)} {secrets_ref : List (String × SecretCfg)}
    {env : String} {decision : PolicyDecision} {target : CloudTarget}
    {warns1 : List Warn} {envfileInj : Option EnvFileInjection} {st : DesiredState}
    (h : buildStage2 contract pe values secrets_ref env decision target warns1
      envfileInj = Except.ok st) :
    ∃ seed config1 warns2 pwarns,
      exFoldl (seedStep pe secrets_ref env) ⟨[], [], [], []⟩ contract =
        Except.ok seed ∧
      exFoldl (overlayStep (byNameOf contract) (renameMapOf contract)
          (values.map Prod.fst) env)
        (seed.config, warns1) values = Except.ok (config1, warns2) ∧
      st.config = forceAppEnv contract env config1 ∧
      st.secrets = seed.secrets ∧
      st.warnings = warns2 ++ pwarns := by
  unfold buildStage2 at h
  cases hseed : exFoldl (seedStep pe secrets_ref env) ⟨[], [], [], []⟩ contract with
  | error e => rw [hseed] at h; cases h
  | ok seed =>
    rw [hseed] at h
    dsimp only at h
    cases hov : exFoldl (overlayStep (byNameOf contract) (renameMapOf contract)
        (values.map Prod.fst) env) (seed.config, warns1) values with
    | error e => rw [hov] at h; cases h
    | ok cw =>
      rcases cw with ⟨config1, warns2⟩
      rw [hov] at h
      dsimp only at h
      cases hreq : requiredViolation env (forceAppEnv contract env config1) contract with
      | some var => rw [hreq] at h; cases h
      | none =>
        rw [hreq] at h
        dsimp only at h
        rcases hpre : run_policy_preflight pe decision
            (preflightEnvOf (forceAppEnv contract env config1) seed.varToSecret)
            false (fun _ => false) with ⟨perrs, pwarns, pev⟩
        rw [hpre] at h
        cases perrs with
        | cons p ps => cases h
        | nil =>
          injection h with h
          subst h
          exact ⟨seed, config1, warns2, pwarns.map Warn.pre, rfl, hov, rfl, rfl, rfl⟩

theorem build_ok_elim {contract : List ContractVar} {pe : PolicyEnvCfg}
    {values : List (String × Value)} {secrets_ref : List (String × SecretCfg)}
    {env : String} {w : Option String}
    {oracle : Except Err (EnvFileInjection × List Warn)} {st : DesiredState}
    (h : build_desired_state contract pe values secrets_ref env w oracle =
      Except.ok st) :
    ∃ decision target warns1 inj,
      buildStage2 contract pe values secrets_ref env decision target warns1 inj =
        Except.ok st := by
  unfold build_desired_state at h
  cases hd : decide_policy_env pe env "ecs" w with
  | error e => rw [hd] at h; cases h
  | ok decision =>
    rw [hd] at h
    dsimp only at h
    cases hs : select_cloud_target pe env w with
    | error e => rw [hs] at h; cases h
    | ok target =>
      rw [hs] at h
      dsimp only at h
      by_cases hp : target.provider = "envfile"
      · rw [if_pos hp] at h
        cases ho : oracle with
        | error e => rw [ho] at h; cases h
        | ok iw =>
          rcases iw with ⟨inj, ws⟩
          rw [ho] at h
          dsimp only at h
          exact ⟨decision, target, _, _, h⟩
      · rw [if_neg hp] at h
        exact ⟨decision, target, _, _, h⟩

/-! ## Invariants of the defaults/secrets seed loop -/

theorem seed_secrets_mem {pe : PolicyEnvCfg} {secrets_ref : List (String × SecretCfg)}
    {env : String} {contract : List ContractVar} {seed : SeedAcc}
    (h : exFoldl (seedStep pe secrets_ref env) ⟨[], [], [], []⟩ contract =
      Except.ok seed) :
    ∀ p ∈ seed.secrets, ∃ cfg sref,
      alookup secrets_ref p.1 = some cfg ∧
      stable_secret_ref pe env p.1 cfg = Except.ok sref ∧
      p.2 = [("backend", Value.vstr (pyStrip cfg.backend)),
             ("stable_ref", Value.vstr sref)] := by
  refine exFoldl_invariant
    (fun acc => ∀ p ∈ acc.secrets, ∃ cfg sref,
      alookup secrets_ref p.1 = some cfg ∧
      stable_secret_ref pe env p.1 cfg = Except.ok sref ∧
      p.2 = [("backend", Value.vstr (pyStrip cfg.backend)),
             ("stable_ref", Value.vstr sref)]) ?_ (by simp) h
  intro acc var acc' _ hP hstep
  unfold seedStep at hstep
  by_cases hsc : is_in_scope var env
  · rw [if_neg (by simp [hsc])] at hstep
    by_cases hrm : var.state = "removed"
    · rw [if_pos hrm] at hstep
      injection hstep with hstep
      subst hstep
      exact hP
    · rw [if_neg hrm] at hstep
      by_cases hsec : var.secret
      · rw [if_pos hsec] at hstep
        cases hsr : var.secret_ref with
        | none => rw [hsr] at hstep; cases hstep
        | some refName =>
          rw [hsr] at hstep
          dsimp only at hstep
          cases hcfg : alookup secrets_ref refName with
          | none => rw [hcfg] at hstep; cases hstep
          | some cfg =>
            rw [hcfg] at hstep
            dsimp only at hstep
            cases hsref : stable_secret_ref pe env refName cfg with
            | error e => rw [hsref] at hstep; cases hstep
            | ok sref =>
              rw [hsref] at hstep
              injection hstep with hstep
              subst hstep
              intro p hp
              simp only at hp
              rcases mem_pyDictInsert_elim hp with hp' | hp'
              · exact hP p hp'
              · subst hp'
                exact ⟨cfg, sref, hcfg, hsref, rfl⟩
      · rw [if_neg hsec] at hstep
        cases hdef : var.default with
        | some d =>
          rw [hdef] at hstep
          injection hstep with hstep
          subst hstep
          exact hP
        | none =>
          rw [hdef] at hstep
          injection hstep with hstep
          subst hstep
          exact hP
  · rw [if_pos (by simp [hsc])] at hstep
    injection hstep with hstep
    subst hstep
    exact hP

theorem seed_config_domain {pe : PolicyEnvCfg} {secrets_ref : List (String × SecretCfg)}
    {env : String} {contract : List ContractVar} {seed : SeedAcc}
    (h : exFoldl (seedStep pe secrets_ref env) ⟨[], [], [], []⟩ contract =
      Except.ok seed) :
    ∀ n v, alookup seed.config n = some v →
      ∃ var ∈ contract, var.name = n ∧ is_in_scope var env = true ∧
        var.state ≠ "removed" := by
  refine exFoldl_invariant
    (fun acc => ∀ n v, alookup acc.config n = some v →
      ∃ var ∈ contract, var.name = n ∧ is_in_scope var env = true ∧
        var.state ≠ "removed") ?_ (by simp [alookup]) h
  intro acc var acc' hvar hP hstep
  unfold seedStep at hstep
  by_cases hsc : is_in_scope var env
  · rw [if_neg (by simp [hsc])] at hstep
    by_cases hrm : var.state = "removed"
    · rw [if_pos hrm] at hstep
      injection hstep with hstep
      subst hstep
      exact hP
    · rw [if_neg hrm] at hstep
      by_cases hsec : var.secret
      · rw [if_pos hsec] at hstep
        cases hsr : var.secret_ref with
        | none => rw [hsr] at hstep; cases hstep
        | some refName =>
          rw [hsr] at hstep
          dsimp only at hstep
          cases hcfg : alookup secrets_ref refName with
          | none => rw [hcfg] at hstep; cases hstep
          | some cfg =>
            rw [hcfg] at hstep
            dsimp only at hstep
            cases hsref : stable_secret_ref pe env refName cfg with
            | error e => rw [hsref] at hstep; cases hstep
            | ok sref =>
              rw [hsref] at hstep
              injection hstep with hstep
              subst hstep
              exact hP
      · rw [if_neg hsec] at hstep
        cases hdef : var.default with
        | some d =>
          rw [hdef] at hstep
          injection hstep with hstep
          subst hstep
          intro n v hn
          simp only at hn
          rcases alookup_pyDictInsert_elim hn with ⟨hn1, _⟩ | hn1
          · exact ⟨var, hvar, hn1 ▸ rfl, hsc, hrm⟩
          · exact hP n v hn1
        | none =>
          rw [hdef] at hstep
          injection hstep with hstep
          subst hstep
          exact hP
  · rw [if_pos (by simp [hsc])] at hstep
    injection hstep with hstep
    subst hstep
    exact hP

/-- **C1.** For every contract, values file and secret-reference file accepted
by `build_desired_state`, every entry of the resulting desired-state secrets
map is exactly the two-field record `{backend, stable_ref}`, whose values are
the reference file's backend tag and the pure `stable_secret_ref` of the
reference configuration.  No resolved secret value appears: the builder takes
no secret material as input, and every diff computed from the desired state
reads only these two fields. -/
theorem c1_secrets_shape
    (contract : List ContractVar) (pe : PolicyEnvCfg)
    (values : List (String × Value)) (secrets_ref : List (String × SecretCfg))
    (env : String) (w : Option String)
    (oracle : Except Err (EnvFileInjection × List Warn)) (st : DesiredState)
    (h : build_desired_state contract pe values secrets_ref env w oracle =
      Except.ok st) :
    ∀ p ∈ st.secrets, ∃ cfg sref,
      alookup secrets_ref p.1 = some cfg ∧
      stable_secret_ref pe env p.1 cfg = Except.ok sref ∧
      p.2 = [("backend", Value.vstr (pyStrip cfg.backend)),
             ("stable_ref", Value.vstr sref)] := by
  rcases build_ok_elim h with ⟨decision, target, warns1, inj, h2⟩
  rcases buildStage2_ok_elim h2 with ⟨seed, config1, warns2, pwarns, hseed, _, _, hsec, _⟩
  rw [hsec]
  exact seed_secrets_mem hseed

/-! ## Elimination for one successful overlay step -/

theorem overlayStep_ok_elim {byName : List (String × ContractVar)}
    {renameMap : List (String × String)} {valuesKeys : List String} {env : String}
    {c : List (String × Value)} {w : List Warn} {rk : String} {rv : Value}
    {c' : List (String × Value)} {w' : List Warn}
    (h : overlayStep byName renameMap valuesKeys env (c, w) (rk, rv) =
      Except.ok (c', w')) :
    ∃ key vdef,
      alookup byName key = some vdef ∧
      vdef.state ≠ "removed" ∧ vdef.secret = false ∧
      is_in_scope vdef env = true ∧
      c' = pyDictInsert c key rv ∧
      (∃ wex, w' = w ++ wex) ∧
      (key = rk ∨
        (alookup byName rk = none ∧ alookup renameMap rk = some key ∧
         Warn.legacyKey rk key ∈ w')) := by
  unfold overlayStep at h
  dsimp only at h
  cases hB : alookup byName rk with
  | some vd =>
    rw [hB] at h
    dsimp only at h
    by_cases hrm : vd.state = "removed"
    · rw [if_pos hrm] at h; cases h
    · rw [if_neg hrm] at h
      by_cases hsec : vd.secret
      · rw [if_pos (by simp [hsec])] at h; cases h
      · rw [if_neg (by simp [hsec])] at h
        by_cases hsc : is_in_scope vd env
        · rw [if_neg (by simp [hsc])] at h
          cases htc : type_check_value vd rv with
          | some msg => rw [htc] at h; cases h
          | none =>
            rw [htc] at h
            dsimp only at h
            injection h with h
            injection h with hc hw
            refine ⟨rk, vd, hB, hrm, (by simpa using hsec), hsc, hc.symm, ?_, Or.inl rfl⟩
            by_cases hdep : vd.state = "deprecated"
            · rw [if_pos hdep] at hw
              exact ⟨_, hw.symm⟩
            · rw [if_neg hdep] at hw
              exact ⟨[], by rw [← hw, List.append_nil]⟩
        · rw [if_pos (by simp [hsc])] at h; cases h
  | none =>
    rw [hB] at h
    dsimp only at h
    cases hR : alookup renameMap rk with
    | none => rw [hR] at h; cases h
    | some newKey =>
      rw [hR] at h
      dsimp only at h
      by_cases hK : newKey ∈ valuesKeys
      · rw [if_pos hK] at h; cases h
      · rw [if_neg hK] at h
        dsimp only at h
        cases hB2 : alookup byName newKey with
        | none => rw [hB2] at h; cases h
        | some vd =>
          rw [hB2] at h
          dsimp only at h
          by_cases hrm : vd.state = "removed"
          · rw [if_pos hrm] at h; cases h
          · rw [if_neg hrm] at h
            by_cases hsec : vd.secret
            · rw [if_pos (by simp [hsec])] at h; cases h
            · rw [if_neg (by simp [hsec])] at h
              by_cases hsc : is_in_scope vd env
              · rw [if_neg (by simp [hsc])] at h
                cases htc : type_check_value vd rv with
                | some msg => rw [htc] at h; cases h
                | none =>
                  rw [htc] at h
                  dsimp only at h
                  injection h with h
                  injection h with hc hw
                  refine ⟨newKey, vd, hB2, hrm, (by simpa using hsec), hsc, hc.symm,
                    ?_, Or.inr ⟨rfl, rfl, ?_⟩⟩
                  · by_cases hdep : vd.state = "deprecated"
                    · rw [if_pos hdep] at hw
                      exact ⟨_, by rw [← hw, List.append_assoc]⟩
                    · rw [if_neg hdep] at hw
                      exact ⟨_, hw.symm⟩
                  · by_cases hdep : vd.state = "deprecated"
                    · rw [if_pos hdep] at hw
                      rw [← hw]
                      simp
                    · rw [if_neg hdep] at hw
                      rw [← hw]
                      simp
              · rw [if_pos (by simp [hsc])] at h; cases h

/-- Every key the overlay loop adds comes from a contract variable that is
in scope and not removed. -/
theorem overlay_config_domain {byName : List (String × ContractVar)}
    {renameMap : List (String × String)} {valuesKeys : List String} {env : String}
    {values : List (String × Value)} {cfg0 : List (String × Value)} {ws0 : List Warn}
    {cfg1 : List (String × Value)} {ws1 : List Warn}
    (h : exFoldl (overlayStep byName renameMap valuesKeys env) (cfg0, ws0) values =
      Except.ok (cfg1, ws1)) :
    ∀ n v, alookup cfg1 n = some v →
      alookup cfg0 n ≠ none ∨
      ∃ vd, alookup byName n = some vd ∧ is_in_scope vd env = true ∧
        vd.state ≠ "removed" := by
  refine exFoldl_invariant
    (fun cw => ∀ n v, alookup cw.1 n = some v →
      alookup cfg0 n ≠ none ∨
      ∃ vd, alookup byName n = some vd ∧ is_in_scope vd env = true ∧
        vd.state ≠ "removed")
    ?_ ?_ h
  · intro acc x acc' _ hP hstep
    rcases acc with ⟨cA, wA⟩
    rcases acc' with ⟨cB, wB⟩
    rcases x with ⟨rk, rv⟩
    rcases overlayStep_ok_elim hstep with
      ⟨key, vdef, hkey, hrm, _, hsc, hcB, _, _⟩
    intro n v hn
    rw [hcB] at hn
    rcases alookup_pyDictInsert_elim hn with ⟨hn1, _⟩ | hn1
    · exact Or.inr ⟨vdef, hn1 ▸ hkey, hsc, hrm⟩
    · exact hP n v hn1
  · intro n v hn
    exact Or.inl (by rw [hn]; exact (by simp))

/-- **C7.** If the contract defines a variable named `APP_ENV` whose state is
not `removed`, then for every environment name the built desired state maps
`APP_ENV` to that environment name, overriding any overlay value. -/
theorem c7_app_env_forced
    (contract : List ContractVar) (pe : PolicyEnvCfg)
    (values : List (String × Value)) (secrets_ref : List (String × SecretCfg))
    (env : String) (w : Option String)
    (oracle : Except Err (EnvFileInjection × List Warn)) (st : DesiredState)
    (v : ContractVar)
    (hb : build_desired_state contract pe values secrets_ref env w oracle =
      Except.ok st)
    (hv : v ∈ contract) (hname : v.name = "APP_ENV") (hstate : v.state ≠ "removed") :
    alookup st.config "APP_ENV" = some (Value.vstr env) := by
  rcases build_ok_elim hb with ⟨decision, target, warns1, inj, h2⟩
  rcases buildStage2_ok_elim h2 with ⟨seed, config1, warns2, pwarns, _, _, hcfg, _, _⟩
  rw [hcfg]
  unfold forceAppEnv
  have hfind : (contract.find? (fun x => x.name == "APP_ENV" && x.state != "removed")).isSome := by
    rw [List.find?_isSome]
    exact ⟨v, hv, by simp [hname, hstate]⟩
  rcases Option.isSome_iff_exists.mp hfind with ⟨x, hx⟩
  rw [hx]
  exact alookup_pyDictInsert_self _ _ _

/-- Counterexample to **C6** as stated: the contract variable `APP_ENV` scoped
to `prod` only is nonetheless present in the config of the desired state built
for `dev`, because the environment-selector force-set (lines 1109-1112) does
not check scope. -/
theorem c6_counterexample :
    build_desired_state [cx6_var] basePolicy [] [] "dev" none
      (Except.error Err.envfileOracleError) = Except.ok cx6_state ∧
    alookup cx6_state.config cx6_var.name = some (Value.vstr "dev") ∧
    cx6_var.scopes = some ["prod"] ∧
    ¬ ("dev" ∈ (["prod"] : List String)) := by
  refine ⟨by decide, by decide, rfl, by decide⟩

/-- **C6 (amended).** For every contract variable that declares a scope set and
every environment name outside that set, the built desired state's config map
does not contain that variable's name — unless the variable is the `APP_ENV`
environment selector and is not removed, in which case it is force-set to the
environment name regardless of scope (see `c6_counterexample`). -/
theorem c6_amended
    (contract : List ContractVar) (pe : PolicyEnvCfg)
    (values : List (String × Value)) (secrets_ref : List (String × SecretCfg))
    (env : String) (w : Option String)
    (oracle : Except Err (EnvFileInjection × List Warn)) (st : DesiredState)
    (var : ContractVar) (sc : List String)
    (hnd : (contract.map ContractVar.name).Nodup)
    (hb : build_desired_state contract pe values secrets_ref env w oracle =
      Except.ok st)
    (hv : var ∈ contract) (hscopes : var.scopes = some sc) (henv : env ∉ sc)
    (happex : var.name = "APP_ENV" → var.state = "removed") :
    alookup st.config var.name = none := by
  have hscope : is_in_scope var env = false := by
    simp [is_in_scope, hscopes, henv]
  rcases build_ok_elim hb with ⟨decision, target, warns1, inj, h2⟩
  rcases buildStage2_ok_elim h2 with ⟨seed, config1, warns2, pwarns, hseed, hov, hcfg, _, _⟩
  rw [hcfg]
  have hc1 : alookup config1 var.name = none := by
    cases hl : alookup config1 var.name with
    | none => rfl
    | some v0 =>
      exfalso
      rcases overlay_config_domain hov var.name v0 hl with hbase | ⟨vd, hvd, hvdsc, _⟩
      · rcases Option.ne_none_iff_exists'.mp hbase with ⟨v1, hv1⟩
        rcases seed_config_domain hseed var.name v1 hv1 with ⟨var2, hvar2, hn2, hsc2, _⟩
        have heq : var2 = var := contract_name_inj hnd hvar2 hv hn2
        rw [heq, hscope] at hsc2
        cases hsc2
      · rcases alookup_byNameOf hvd with ⟨hvdmem, hvdname⟩
        have heq : vd = var := contract_name_inj hnd hvdmem hv hvdname
        rw [heq, hscope] at hvdsc
        cases hvdsc
  unfold forceAppEnv
  cases hf : contract.find? (fun x => x.name == "APP_ENV" && x.state != "removed") with
  | none => exact hc1
  | some x =>
    by_cases hn : var.name = "APP_ENV"
    · exfalso
      have hxmem := List.mem_of_find?_eq_some hf
      have hxp := List.find?_some hf
      rw [Bool.and_eq_true] at hxp
      have hxname : x.name = "APP_ENV" := by
        have := hxp.1
        rwa [beq_iff_eq] at this
      have hxstate : x.state ≠ "removed" := by
        have := hxp.2
        rw [bne_iff_ne] at this
        exact this
      have heq : x = var := contract_name_inj hnd hxmem hv (hxname.trans hn.symm)
      exact hxstate (heq ▸ happex hn)
    · rw [alookup_pyDictInsert_ne _ _ _ _ hn]
      exact hc1

/-! ## Rename-alias handling (C8) -/

/-- The overlay step dies with the conflicting-keys error whenever a
legacy key resolves through the rename map to a canonical key that is itself
set in the same values file — regardless of the accumulated state. -/
theorem overlayStep_conflict {byName : List (String × ContractVar)}
    {renameMap : List (String × String)} {valuesKeys : List String} {env : String}
    (acc : List (String × Value) × List Warn) {rk : String} (rv : Value)
    {newKey : String}
    (hB : alookup byName rk = none) (hR : alookup renameMap rk = some newKey)
    (hK : newKey ∈ valuesKeys) :
    overlayStep byName renameMap valuesKeys env acc (rk, rv) =
      Except.error (.conflictingKeys rk newKey) := by
  rcases acc with ⟨c, w⟩
  unfold overlayStep
  dsimp only
  rw [hB]
  dsimp only
  rw [hR]
  dsimp only
  rw [if_pos hK]

/-- A values overlay entry whose key is unknown to the contract but registered
as a rename alias ends up stored under the canonical key, with the legacy-key
warning recorded, provided the whole overlay loop succeeds. -/
theorem overlay_legacy_stored {contract : List ContractVar} {env : String}
    {values : List (String × Value)} {cfg0 : List (String × Value)} {ws0 : List Warn}
    {cfg1 : List (String × Value)} {ws1 : List Warn} {raw : String} {v : Value}
    {newk : String}
    (hndN : (contract.map ContractVar.name).Nodup)
    (hndK : (values.map Prod.fst).Nodup)
    (hmem : (raw, v) ∈ values)
    (hB : alookup (byNameOf contract) raw = none)
    (hR : alookup (renameMapOf contract) raw = some newk)
    (h : exFoldl (overlayStep (byNameOf contract) (renameMapOf contract)
        (values.map Prod.fst) env) (cfg0, ws0) values = Except.ok (cfg1, ws1)) :
    alookup cfg1 newk = some v ∧ Warn.legacyKey raw newk ∈ ws1 := by
  have hKnotin : newk ∉ values.map Prod.fst := by
    intro hK
    refine exFoldl_ne_ok_of_mem_error hmem ?_ h
    intro acc
    exact ⟨_, overlayStep_conflict acc v hB hR hK⟩
  rcases List.append_of_mem hmem with ⟨l1, l2, hsplit⟩
  have hraw_notin_l2 : ∀ x ∈ l2, Prod.fst x ≠ raw := by
    intro x hx hxr
    rw [hsplit] at hndK
    simp only [List.map_append, List.map_cons] at hndK
    have := (List.nodup_cons.mp (hndK.of_append_right)).1
    exact this (hxr ▸ List.mem_map_of_mem Prod.fst hx)
  have hl2_vals : ∀ x ∈ l2, Prod.fst x ∈ values.map Prod.fst := by
    intro x hx
    rw [hsplit]
    simp only [List.map_append, List.map_cons]
    exact List.mem_append_right _ (List.mem_cons_of_mem _ (List.mem_map_of_mem Prod.fst hx))
  set K := values.map Prod.fst with hKdef
  rw [hsplit] at h
  rcases exFoldl_append_ok h with ⟨acc1, _, h2⟩
  simp only [exFoldl] at h2
  cases hstep : overlayStep (byNameOf contract) (renameMapOf contract)
      K env acc1 (raw, v) with
  | error e => rw [hstep] at h2; cases h2
  | ok acc2 =>
    rw [hstep] at h2
    rcases acc1 with ⟨c1, w1⟩
    rcases acc2 with ⟨c2, w2⟩
    rcases overlayStep_ok_elim hstep with
      ⟨key, vdef, hkey, _, _, _, hc2, _, hor⟩
    have hkeynewk : key = newk ∧ Warn.legacyKey raw newk ∈ w2 := by
      rcases hor with hor | ⟨_, hR2, hwm⟩
      · rw [hor] at hkey
        rw [hB] at hkey
        cases hkey
      · rw [hR] at hR2
        injection hR2 with hR2
        exact ⟨hR2.symm, hR2 ▸ hwm⟩
    rcases hkeynewk with ⟨hkeq, hwm⟩
    subst hkeq
    have hstart : alookup c2 key = some v ∧ Warn.legacyKey raw key ∈ w2 := by
      constructor
      · rw [hc2]
        exact alookup_pyDictInsert_self _ _ _
      · exact hwm
    refine exFoldl_invariant
      (fun cw => alookup cw.1 key = some v ∧ Warn.legacyKey raw key ∈ cw.2)
      ?_ hstart h2
    intro accA x accB hx hP hstepB
    rcases accA with ⟨cA, wA⟩
    rcases accB with ⟨cB, wB⟩
    rcases x with ⟨xk, xv⟩
    rcases overlayStep_ok_elim hstepB with
      ⟨keyB, vdefB, _, _, _, _, hcB, ⟨wex, hwB⟩, horB⟩
    have hkeyB_ne : keyB ≠ key := by
      intro hkeq
      rcases horB with horB | ⟨_, hRB, _⟩
      · exact hKnotin (hkeq ▸ horB ▸ hl2_vals (xk, xv) hx)
      · rw [hkeq] at hRB
        exact hraw_notin_l2 (xk, xv) hx (renameMap_inj hndN hRB hR)
    constructor
    · rw [hcB, alookup_pyDictInsert_ne _ _ _ _ (fun hh => hkeyB_ne hh.symm)]
      exact hP.1
    · rw [hwB]
      exact List.mem_append_left _ hP.2

/-- **C8.** A values-overlay key unknown to the contract but registered as a
variable's `rename_from` alias is stored under the canonical variable name with
a non-fatal legacy-key warning (which survives into the built state's warning
list); and if the same overlay sets both the legacy key and its canonical key,
building the desired state fails. -/
theorem c8_rename (contract : List ContractVar) (pe : PolicyEnvCfg)
    (values : List (String × Value)) (secrets_ref : List (String × SecretCfg))
    (env : String) (w : Option String)
    (oracle : Except Err (EnvFileInjection × List Warn))
    (raw : String) (v : Value) (newk : String) :
    ((contract.map ContractVar.name).Nodup →
     (values.map Prod.fst).Nodup →
     (raw, v) ∈ values →
     alookup (byNameOf contract) raw = none →
     alookup (renameMapOf contract) raw = some newk →
     ∀ cfg0 ws0 cfg1 ws1,
       exFoldl (overlayStep (byNameOf contract) (renameMapOf contract)
           (values.map Prod.fst) env) (cfg0, ws0) values = Except.ok (cfg1, ws1) →
       alookup cfg1 newk = some v ∧ Warn.legacyKey raw newk ∈ ws1) ∧
    ((contract.map ContractVar.name).Nodup →
     (values.map Prod.fst).Nodup →
     (raw, v) ∈ values →
     alookup (byNameOf contract) raw = none →
     alookup (renameMapOf contract) raw = some newk →
     ∀ st, build_desired_state contract pe values secrets_ref env w oracle =
        Except.ok st →
       Warn.legacyKey raw newk ∈ st.warnings) ∧
    ((raw, v) ∈ values →
     alookup (byNameOf contract) raw = none →
     alookup (renameMapOf contract) raw = some newk →
     newk ∈ values.map Prod.fst →
     ∀ st, build_desired_state contract pe values secrets_ref env w oracle ≠
        Except.ok st) := by
  refine ⟨?_, ?_, ?_⟩
  · intro hndN hndK hmem hB hR cfg0 ws0 cfg1 ws1 h
    exact overlay_legacy_stored hndN hndK hmem hB hR h
  · intro hndN hndK hmem hB hR st hb
    rcases build_ok_elim hb with ⟨decision, target, warns1, inj, h2⟩
    rcases buildStage2_ok_elim h2 with ⟨seed, config1, warns2, pwarns, _, hov, _, _, hw⟩
    rcases overlay_legacy_stored hndN hndK hmem hB hR hov with ⟨_, hwm⟩
    rw [hw]
    exact List.mem_append_left _ hwm
  · intro hmem hB hR hK st hb
    rcases build_ok_elim hb with ⟨decision, target, warns1, inj, h2⟩
    rcases buildStage2_ok_elim h2 with ⟨seed, config1, warns2, pwarns, _, hov, _, _, _⟩
    refine exFoldl_ne_ok_of_mem_error hmem ?_ hov
    intro acc
    exact ⟨_, overlayStep_conflict acc v hB hR hK⟩

/-! ## Rule selection (C5) -/

theorem foldl_max_init_le (l : List Nat) : ∀ init : Nat, init ≤ l.foldl max init := by
  induction l with
  | nil => intro init; exact Nat.le_refl _
  | cons y ys ih =>
    intro init
    exact Nat.le_trans (Nat.le_max_left init y) (ih (max init y))

theorem le_foldl_max {l : List Nat} {x : Nat} (hx : x ∈ l) :
    ∀ init : Nat, x ≤ l.foldl max init := by
  induction l with
  | nil => cases hx
  | cons y ys ih =>
    intro init
    rcases List.mem_cons.mp hx with hxy | hxy
    · subst hxy
      exact Nat.le_trans (Nat.le_max_right init x) (foldl_max_init_le ys (max init x))
    · exact ih hxy (max init y)

/-- Counterexample to **C5** as stated: reading specificity as the count of
*declared* predicate keys, `cx5_r1` (declared `env: null` and
`runtime_target: "ecs"`, count 2) is the unique highest-specificity matching
rule for input env `"None"`, runtime target `"ecs"` — the claim says it must
be selected.  The engine counts only non-null predicate values (line 159), sees
a 1-1 tie and aborts with the ambiguity error instead. -/
theorem c5_counterexample :
    cx5_r1.rmatch.map claimSpecificity = some 2 ∧
    cx5_r2.rmatch.map claimSpecificity = some 1 ∧
    matchedRules cx5_policy.rules "None" "ecs" none = [(1, cx5_r1), (1, cx5_r2)] ∧
    decide_policy_env cx5_policy "None" "ecs" none =
      Except.error (.ambiguousRules 1 ["<missing-id>", "<missing-id>"]) := by
  refine ⟨by decide, by decide, by decide, by decide⟩

/-- **C5 (amended).** In both rule-matching passes, among the rules whose
declared predicates all match the input, specificity is the count of declared
predicate keys *with non-null values* (see `c5_counterexample` for why the
null-valued keys must be excluded).  The rule standing alone at the top
specificity is selected (the decision/target is computed from it and the
defaults); two or more rules tied at the top specificity abort the invocation
with the ambiguity error naming them. -/
theorem c5_amended (pe : PolicyEnvCfg) (env rt : String) (w : Option String)
    (hauth : pyStrip (pyOrStr pe.default_auth_mode "auto") ∈ AUTH_MODES)
    (hpf : pyStrip (pyOrStr pe.default_preflight_mode "warn") ∈ PREFLIGHT_MODES) :
    (∀ p ∈ matchedRules pe.rules env rt w,
      p.1 ≤ maxSpecOf (matchedRules pe.rules env rt w)) ∧
    (∀ s r, (matchedRules pe.rules env rt w).filter
        (fun p => p.1 = maxSpecOf (matchedRules pe.rules env rt w)) = [(s, r)] →
      decide_policy_env pe env rt w =
        applyRuleSet env rt w (pyStrip (pyOrStr pe.default_auth_mode "auto"))
          (pyStrip (pyOrStr pe.default_preflight_mode "warn"))
          (pyStrip (pyOrStr pe.fallback_dir ".ai/.tmp/env/fallback")) r) ∧
    (∀ p q rest, (matchedRules pe.rules env rt w).filter
        (fun x => x.1 = maxSpecOf (matchedRules pe.rules env rt w)) = p :: q :: rest →
      decide_policy_env pe env rt w =
        Except.error (.ambiguousRules (maxSpecOf (matchedRules pe.rules env rt w))
          ((p :: q :: rest).map fun x => idOrMissing x.2.id))) ∧
    (∀ p ∈ matchedTargets pe.cloud_targets env w,
      p.1 ≤ maxTargetSpecOf (matchedTargets pe.cloud_targets env w)) ∧
    (∀ s t, (matchedTargets pe.cloud_targets env w).filter
        (fun p => p.1 = maxTargetSpecOf (matchedTargets pe.cloud_targets env w)) = [(s, t)] →
      select_cloud_target pe env w = mkCloudTarget pe.cloud_defaults t env) ∧
    (∀ p q rest, (matchedTargets pe.cloud_targets env w).filter
        (fun x => x.1 = maxTargetSpecOf (matchedTargets pe.cloud_targets env w)) = p :: q :: rest →
      select_cloud_target pe env w =
        Except.error (.ambiguousTargets (maxTargetSpecOf (matchedTargets pe.cloud_targets env w))
          ((p :: q :: rest).map fun x => idOrMissing x.2.id))) := by
  refine ⟨?_, ?_, ?_, ?_, ?_, ?_⟩
  · intro p hp
    exact le_foldl_max (List.mem_map_of_mem Prod.fst hp) 0
  · intro s r hfilter
    cases hm : matchedRules pe.rules env rt w with
    | nil => rw [hm] at hfilter; cases hfilter
    | cons m ms =>
      rw [hm] at hfilter
      unfold decide_policy_env
      rw [if_neg (not_not_intro hauth)]
      dsimp only
      rw [if_neg (not_not_intro hpf)]
      rw [hm]
      dsimp only [maxSpecOf] at hfilter ⊢
      rw [hfilter]
  · intro p q rest hfilter
    cases hm : matchedRules pe.rules env rt w with
    | nil => rw [hm] at hfilter; cases hfilter
    | cons m ms =>
      rw [hm] at hfilter
      unfold decide_policy_env
      rw [if_neg (not_not_intro hauth)]
      dsimp only
      rw [if_neg (not_not_intro hpf)]
      rw [hm]
      dsimp only [maxSpecOf] at hfilter ⊢
      rw [hfilter]
  · intro p hp
    exact le_foldl_max (List.mem_map_of_mem Prod.fst hp) 0
  · intro s t hfilter
    cases hm : matchedTargets pe.cloud_targets env w with
    | nil => rw [hm] at hfilter; cases hfilter
    | cons m ms =>
      rw [hm] at hfilter
      unfold select_cloud_target
      rw [hm]
      dsimp only
      rw [hfilter]
  · intro p q rest hfilter
    cases hm : matchedTargets pe.cloud_targets env w with
    | nil => rw [hm] at hfilter; cases hfilter
    | cons m ms =>
      rw [hm] at hfilter
      unfold select_cloud_target
      rw [hm]
      dsimp only
      rw [hfilter]

/-! ## Witnesses: the claim theorems at concrete inputs -/

/-- Witness for `c1_secrets_shape`: the build over the one-secret contract
succeeds and its single secret entry has exactly the two stable fields. -/
theorem c1_secrets_shape_witness :
    build_desired_state [wSecretVar] basePolicy [] [("db_password", wSecretCfg)] "dev" none
      (Except.error Err.envfileOracleError) = Except.ok wDesired ∧
    ("db_password", wMeta) ∈ wDesired.secrets ∧
    ∃ cfg sref,
      alookup [("db_password", wSecretCfg)] "db_password" = some cfg ∧
      stable_secret_ref basePolicy "dev" "db_password" cfg = Except.ok sref ∧
      wMeta = [("backend", Value.vstr (pyStrip cfg.backend)),
               ("stable_ref", Value.vstr sref)] :=
  ⟨by decide, by decide,
   c1_secrets_shape [wSecretVar] basePolicy [] [("db_password", wSecretCfg)] "dev" none
     (Except.error Err.envfileOracleError) wDesired (by decide) ("db_password", wMeta)
     (by decide)⟩

/-- Witness for `c2_apply_idempotent`: applying `wDesired` writes `wApplied`,
and diffing `wDesired` against it is a NOOP. -/
theorem c2_apply_idempotent_witness :
    SecretsWellFormed wDesired.secrets ∧
    apply_state_mockcloud none wDesired "T1" = Except.ok wApplied ∧
    diff_state wDesired (some wApplied) =
      { env := wDesired.env, provider := wDesired.provider, status := "NOOP"
        config := ⟨[], [], []⟩, secrets := ⟨[], [], []⟩
        deployed_at := some (Value.vstr "T1") } := by
  have hforall : ∀ p ∈ wDesired.secrets, ∃ b r,
      p.2 = [("backend", Value.vstr b), ("stable_ref", Value.vstr r)] := by
    intro p hp
    have hp' : p ∈ [("db_password", wMeta)] := hp
    rcases List.mem_singleton.mp hp' with rfl
    exact ⟨"mock", "mock://dev/db_password", rfl⟩
  exact ⟨⟨by decide, hforall⟩, by decide,
    c2_apply_idempotent wDesired none "T1" wApplied ⟨by decide, hforall⟩ (by decide)⟩

/-- Witness for `c3_diff_stable_fields`: `wApplied` and `c3w_dep2` differ only
in the secret's `version`/`rotated_at` yet diff identically against
`wDesired`. -/
theorem c3_diff_stable_fields_witness :
    wApplied.config = c3w_dep2.config ∧
    wApplied.applied_at = c3w_dep2.applied_at ∧
    secretsAgree wApplied.secrets c3w_dep2.secrets ∧
    diff_state wDesired (some wApplied) = diff_state wDesired (some c3w_dep2) := by
  have hsec : secretsAgree wApplied.secrets c3w_dep2.secrets := by
    refine List.Forall₂.cons ⟨rfl, ?_⟩ List.Forall₂.nil
    intro k h1 h2
    simp only [alookup]
    by_cases hb : "backend" = k
    · rw [if_pos hb, if_pos hb]
    · rw [if_neg hb, if_neg hb]
      by_cases hs : "stable_ref" = k
      · rw [if_pos hs, if_pos hs]
      · rw [if_neg hs, if_neg hs]
        rw [if_neg (fun hv : "version" = k => h1 hv.symm),
            if_neg (fun hv2 : "version" = k => h1 hv2.symm)]
        rw [if_neg (fun hr : "rotated_at" = k => h2 hr.symm),
            if_neg (fun hr2 : "rotated_at" = k => h2 hr2.symm)]
  exact ⟨rfl, rfl, hsec, c3_diff_stable_fields.1 wDesired wApplied c3w_dep2 rfl rfl hsec⟩

/-- Witness for `c5_amended`: under `c5w_policy` the specificity-2 rule stands
alone at the top and is selected; the catch-all target is likewise unique. -/
theorem c5_amended_witness :
    pyStrip (pyOrStr c5w_policy.default_auth_mode "auto") ∈ AUTH_MODES ∧
    pyStrip (pyOrStr c5w_policy.default_preflight_mode "warn") ∈ PREFLIGHT_MODES ∧
    (matchedRules c5w_policy.rules "e" "ecs" none).filter
      (fun p => p.1 = maxSpecOf (matchedRules c5w_policy.rules "e" "ecs" none)) =
      [(2, c5w_hi)] ∧
    decide_policy_env c5w_policy "e" "ecs" none =
      applyRuleSet "e" "ecs" none (pyStrip (pyOrStr c5w_policy.default_auth_mode "auto"))
        (pyStrip (pyOrStr c5w_policy.default_preflight_mode "warn"))
        (pyStrip (pyOrStr c5w_policy.fallback_dir ".ai/.tmp/env/fallback")) c5w_hi ∧
    (matchedTargets c5w_policy.cloud_targets "e" none).filter
      (fun p => p.1 = maxTargetSpecOf (matchedTargets c5w_policy.cloud_targets "e" none)) =
      [(0, mockTarget)] ∧
    select_cloud_target c5w_policy "e" none =
      mkCloudTarget c5w_policy.cloud_defaults mockTarget "e" := by
  have H := c5_amended c5w_policy "e" "ecs" none (by decide) (by decide)
  exact ⟨by decide, by decide, by decide, H.2.1 2 c5w_hi (by decide), by decide,
    H.2.2.2.2.1 0 mockTarget (by decide)⟩

/-- Witness for `c6_amended`: the scoped variable `FOO` (scope `prod`) is
absent from the config built for `dev`. -/
theorem c6_amended_witness :
    ([c6w_var].map ContractVar.name).Nodup ∧
    build_desired_state [c6w_var] basePolicy [] [] "dev" none
      (Except.error Err.envfileOracleError) = Except.ok c6w_state ∧
    c6w_var ∈ [c6w_var] ∧
    c6w_var.scopes = some ["prod"] ∧
    "dev" ∉ (["prod"] : List String) ∧
    (c6w_var.name = "APP_ENV" → c6w_var.state = "removed") ∧
    alookup c6w_state.config c6w_var.name = none :=
  ⟨by decide, by decide, by decide, rfl, by decide, by decide,
   c6_amended [c6w_var] basePolicy [] [] "dev" none (Except.error Err.envfileOracleError)
     c6w_state c6w_var ["prod"] (by decide) (by decide) (by decide) rfl (by decide)
     (by decide)⟩

/-- Witness for `c7_app_env_forced`: building `[cx6_var]` for `dev` forces
`APP_ENV = "dev"` in the config. -/
theorem c7_app_env_forced_witness :
    build_desired_state [cx6_var] basePolicy [] [] "dev" none
      (Except.error Err.envfileOracleError) = Except.ok cx6_state ∧
    cx6_var ∈ [cx6_var] ∧
    cx6_var.name = "APP_ENV" ∧
    cx6_var.state ≠ "removed" ∧
    alookup cx6_state.config "APP_ENV" = some (Value.vstr "dev") :=
  ⟨by decide, by decide, rfl, by decide,
   c7_app_env_forced [cx6_var] basePolicy [] [] "dev" none
     (Except.error Err.envfileOracleError) cx6_state cx6_var (by decide) (by decide) rfl
     (by decide)⟩

/-- Witness for `c8_rename`: overlay key `OLD_KEY` is stored as `NEW_KEY`, the
legacy-key warning survives into the built state. -/
theorem c8_rename_witness :
    exFoldl (overlayStep (byNameOf [c8w_new]) (renameMapOf [c8w_new])
        (([("OLD_KEY", Value.vstr "x")] : List (String × Value)).map Prod.fst) "dev")
      ([], []) [("OLD_KEY", Value.vstr "x")] =
      Except.ok ([("NEW_KEY", Value.vstr "x")], [Warn.legacyKey "OLD_KEY" "NEW_KEY"]) ∧
    alookup [("NEW_KEY", Value.vstr "x")] "NEW_KEY" = some (Value.vstr "x") ∧
    Warn.legacyKey "OLD_KEY" "NEW_KEY" ∈ [Warn.legacyKey "OLD_KEY" "NEW_KEY"] ∧
    build_desired_state [c8w_new] basePolicy [("OLD_KEY", Value.vstr "x")] [] "dev" none
      (Except.error Err.envfileOracleError) = Except.ok c8w_state ∧
    Warn.legacyKey "OLD_KEY" "NEW_KEY" ∈ c8w_state.warnings := by
  have H := c8_rename [c8w_new] basePolicy [("OLD_KEY", Value.vstr "x")] [] "dev" none
    (Except.error Err.envfileOracleError) "OLD_KEY" (Value.vstr "x") "NEW_KEY"
  have h1 := H.1 (by decide) (by decide) (by decide) (by decide) (by decide)
    [] [] [("NEW_KEY", Value.vstr "x")] [Warn.legacyKey "OLD_KEY" "NEW_KEY"] (by decide)
  have h2 := H.2.1 (by decide) (by decide) (by decide) (by decide) (by decide)
    c8w_state (by decide)
  exact ⟨by decide, h1.1, h1.2, by decide, h2⟩

/-- Witness for `c9_rotate_version`: first apply gives `db_password` version 1
and null rotation stamp; the rotation bumps it to 2 and stamps `T2`, leaving
the config untouched. -/
theorem c9_rotate_version_witness :
    alookup wDesired.secrets "db_password" = some wMeta ∧
    wDesired.provider = "mockcloud" ∧
    pyGet wMeta "backend" = Value.vstr "mock" ∧
    apply_state_mockcloud none wDesired "T1" = Except.ok wApplied ∧
    ((∃ entry, alookup (wApplied.secrets.getD []) "db_password" =
        some (DeployedSecret.dict entry) ∧
        alookup entry "version" = some (Value.vint 1) ∧
        alookup entry "rotated_at" = some Value.vnull) ∧
     (∃ rec2, rotate_secret_state wDesired wApplied "db_password" "T2" = Except.ok rec2 ∧
        alookup (rec2.secrets.getD []) "db_password" = some (DeployedSecret.dict
          [("backend", pyGet wMeta "backend"), ("stable_ref", srefOf wMeta),
           ("version", Value.vint 2), ("rotated_at", Value.vstr "T2")]) ∧
        rec2.config = wApplied.config)) :=
  ⟨by decide, rfl, by decide, by decide,
   c9_rotate_version wDesired "db_password" wMeta "T1" "T2" wApplied (by decide) rfl
     (by decide) (by decide)⟩

/-- Witness for `c10_ak_only_preflight`: with a full access-key pair detected,
the `ak-only` decision still preflights clean, and an error produced under the
`role-only` decision certifies the auth mode is `role-only` or `auto`. -/
theorem c10_ak_only_preflight_witness :
    c10w_decision.auth_mode = "ak-only" ∧
    (detect_preflight_signals c10w_policy c10w_env false (fun _ => false)).has_ak = true ∧
    run_policy_preflight c10w_policy c10w_decision c10w_env false (fun _ => false) =
      ([], [], false) ∧
    (c10w_decision2.auth_mode = "role-only" ∨ c10w_decision2.auth_mode = "auto") := by
  have H := c10_ak_only_preflight c10w_policy c10w_decision c10w_env false (fun _ => false)
  have H2 := c10_ak_only_preflight c10w_policy c10w_decision2 c10w_env false (fun _ => false)
  refine ⟨rfl, by decide, H.1 rfl, ?_⟩
  exact H2.2
    (run_policy_preflight c10w_policy c10w_decision2 c10w_env false (fun x => false)).1
    (run_policy_preflight c10w_policy c10w_decision2 c10w_env false (fun x => false)).2.1
    (run_policy_preflight c10w_policy c10w_decision2 c10w_env false (fun x => false)).2.2
    rfl (Or.inl (by decide))

end EnvCloudctl
